import Mathlib

/-!
# icon_dump: a shallow embedding of `main.go`

The program asks the Windows shell for the icon of a path and writes it as a PNG.
Its logic is control flow around foreign calls, so the embedding is built as follows.

* Go strings are byte sequences (`GoString`).
* Every foreign procedure is an oracle, a field of `OS`, giving the raw values the
  call hands back (`r1`, out-parameters, last error).  Within one run each procedure
  is called at most once per argument tuple, so a function of the arguments loses
  nothing.
* Every function that reaches the OS returns its Go result together with the list of
  foreign calls it made, in order (`Event`).  A `defer` is a call appended on every
  path that leaves the function after the `defer` statement was executed, last
  registered first; `os.Exit` ends the run without running deferred calls.
* A method call through a nil interface pointer panics before it reaches the OS;
  this is the only panic modelled (`Outcome.panicked`).  A non-nil interface pointer
  is taken to point to a live COM object, and all lazily bound procedures resolve.
* The library functions `filepath.Base`, `filepath.Ext`, `strings.EqualFold` and
  `syscall.UTF16PtrFromString` are embedded from the Go standard library (windows
  build).  The volume name that `filepath.Base` removes is the same in every release
  of Go on a path that starts with a drive letter and a colon (length 2) and on a
  relative path (length 0).  On the other paths (UNC and device paths, rooted paths,
  a colon after a byte that is no letter) the releases differ, so there the length is
  a parameter `vol` of the embedding, and every statement holds for every `vol`.
* Console output, and `filepath.Abs`, which only feeds it, make no foreign call the
  program has to pair with a release; they are left out of the traces.  Flag parsing
  is taken as done: `main` receives the four flag values and the positional arguments.
-/

namespace IconDump

/-! ## Basic types and constants -/

/-- A Go string: an immutable sequence of bytes. -/
abbrev GoString := List UInt8

/-- The UTF-8 bytes of a literal. -/
def utf8 (s : String) : GoString := s.data.flatMap String.utf8EncodeChar

abbrev HICON := Nat
abbrev Ptr := Nat

def MAX_PATH : Nat := 260

def SHGFI_ICON : Nat := 0x000000100
def SHGFI_LARGEICON : Nat := 0x000000000
def SHGFI_SMALLICON : Nat := 0x000000001
def SHGFI_SYSICONINDEX : Nat := 0x000004000

def SHIL_SMALL : Int := 0
def SHIL_LARGE : Int := 1
def SHIL_EXTRALARGE : Int := 2
def SHIL_JUMBO : Int := 4

def ILD_NORMAL : Nat := 0x00000000

def COINIT_APARTMENTTHREADED : Nat := 0x2
def CLSCTX_INPROC_SERVER : Nat := 0x1
def SLGP_SHORTPATH : Nat := 0x1
def SLGP_UNCPRIORITY : Nat := 0x2
def SLGP_RAWPATH : Nat := 0x4

/-- Go's `type IconSize int`. -/
abbrev IconSize := Int

def SizeS : IconSize := 0
def SizeM : IconSize := 1
def SizeL : IconSize := 2
def SizeXL : IconSize := 3

/-- The four size classes the program defines. -/
def sizeClasses : List IconSize := [SizeS, SizeM, SizeL, SizeXL]

/-! ## Path functions of the Go standard library (windows) -/

def byteDot : UInt8 := 46
def byteColon : UInt8 := 58
def byteSlash : UInt8 := 47
def byteBackslash : UInt8 := 92

/-- The constant `filepath.Separator` on Windows. -/
def Separator : UInt8 := byteBackslash

/-- Go's `os.IsPathSeparator` on Windows: both slashes separate. -/
def IsPathSeparator (c : UInt8) : Bool := c == byteBackslash || c == byteSlash

/-- An ASCII letter, as a drive is named. -/
def isDriveLetter (c : UInt8) : Bool := (65 ≤ c && c ≤ 90) || (97 ≤ c && c ≤ 122)

/-- Go's `volumeNameLen` on Windows, the length of the leading volume name, as far
as the releases of Go agree: 2 for a path that starts with a drive letter and a
colon, 0 for a path that is empty or starts with a byte that is no separator and has
no colon second.  On every other path the length is what the parameter `vol` gives. -/
def volumeNameLen (vol : GoString → Nat) (path : GoString) : Nat :=
  if path.length ≥ 2 && isDriveLetter (path.getD 0 0) && path.getD 1 0 == byteColon then 2
  else if path.length == 0
      || (!IsPathSeparator (path.getD 0 0)
          && !(path.length ≥ 2 && path.getD 1 0 == byteColon)) then 0
  else vol path

/-- The paths on which `volumeNameLen` does not consult `vol`. -/
def volumeAgreed (path : GoString) : Bool :=
  (path.length ≥ 2 && isDriveLetter (path.getD 0 0) && path.getD 1 0 == byteColon)
  || (path.length == 0
      || (!IsPathSeparator (path.getD 0 0)
          && !(path.length ≥ 2 && path.getD 1 0 == byteColon)))

/-- The volume rule that finds no volume name beyond the drive letters. -/
def noVolume : GoString → Nat := fun _ => 0

/-- The first loop of `filepath.Base`: drop the separators at the end. -/
def stripTrailingSeparators (path : GoString) : GoString :=
  (path.reverse.dropWhile IsPathSeparator).reverse

/-- The second loop of `filepath.Base`: what follows the last separator, or the
whole string when there is none. -/
def lastElement (path : GoString) : GoString :=
  (path.reverse.takeWhile (fun c => !IsPathSeparator c)).reverse

/-- Go's `filepath.Base`. -/
def Base (vol : GoString → Nat) (path : GoString) : GoString :=
  if path = [] then [byteDot]
  else
    let p1 := stripTrailingSeparators path
    let p2 := p1.drop (volumeNameLen vol p1)
    let p3 := lastElement p2
    if p3 = [] then [Separator] else p3

/-- The loop of `filepath.Ext`, run over the reversed path: `acc` holds the bytes
already passed, in order. -/
def extLoop : GoString → GoString → GoString
  | [], _ => []
  | c :: rest, acc =>
    if IsPathSeparator c then []
    else if c = byteDot then c :: acc
    else extLoop rest (c :: acc)

/-- Go's `filepath.Ext`: the suffix beginning at the final dot of the final element. -/
def Ext (path : GoString) : GoString := extLoop path.reverse []

/-- Go's `strings.EqualFold (ext, ".lnk")`, specialised to its constant argument.
Under simple case folding `l`, `n`, `k` match their capitals, and `k` also matches
the Kelvin sign U+212A (bytes E2 84 AA). -/
def equalFoldLnk (ext : GoString) : Bool :=
  match ext with
  | [d, l, n, k] =>
    d == 46 && (l == 108 || l == 76) && (n == 110 || n == 78) && (k == 107 || k == 75)
  | [d, l, n, k1, k2, k3] =>
    d == 46 && (l == 108 || l == 76) && (n == 110 || n == 78)
      && k1 == 0xE2 && k2 == 0x84 && k3 == 0xAA
  | _ => false

/-- Go's `syscall.UTF16PtrFromString`: no pointer (and an error the callers drop)
when the string holds a NUL byte. -/
def UTF16PtrFromString (s : GoString) : Option GoString :=
  if (0 : UInt8) ∈ s then none else some s

/-! ## Size selection and the output file name (`main`) -/

/-- Lines 524-534 of `main`: the size chosen from the four flags. -/
def selectSize (flagS flagM flagL flagXL : Bool) : IconSize :=
  if flagXL then SizeXL
  else if flagL then SizeL
  else if flagM then SizeM
  else if flagS then SizeS
  else SizeL

/-- Lines 568-578 of `main`: the suffix switch (no default case, so the zero
value `""` is kept for any other size). -/
def sizeSuffix (size : IconSize) : GoString :=
  if size = SizeS then utf8 "_16"
  else if size = SizeM then utf8 "_32"
  else if size = SizeL then utf8 "_48"
  else if size = SizeXL then utf8 "_256"
  else []

/-- Lines 561-566 of `main`: the stem of the output name. -/
def outputStem (vol : GoString → Nat) (use : GoString) : GoString :=
  let base := Base vol use
  let ext := Ext base
  let name := base.take (base.length - ext.length)
  if name = [] then utf8 "icon" else name

/-- Lines 560-579 of `main`: the file name handed to `saveIconToPNG`. -/
def outputName (vol : GoString → Nat) (use : GoString) (size : IconSize) : GoString :=
  outputStem vol use ++ sizeSuffix size ++ utf8 ".png"

/-! ## The foreign interface -/

/-- A non-nil Go `error` value, as the program builds it. -/
inductive GoError
  | errno (code : Nat)
  | new (text : String)
  | errorfNat (format : String) (value : Nat)
  | errorfErr (format : String) (err : GoError)
  | errorfErr2 (format : String) (err1 err2 : GoError)
  deriving DecidableEq, Repr

/-- What `SHGetFileInfoW` hands back: `r1`, the fields `HIcon` and `IIcon` of the
`SHFILEINFOW` it filled, and the last error. -/
structure FileInfoResult where
  r1 : Nat
  hIcon : HICON
  iIcon : Int
  lastErr : Nat

/-- What a procedure with one pointer-sized out-parameter hands back. -/
structure OutResult where
  r1 : Nat
  out : Nat
  lastErr : Nat

/-- What a procedure without out-parameter hands back. -/
structure CallResult where
  r1 : Nat
  lastErr : Nat

/-- What `IShellLinkW::GetPath` hands back: its return value and the buffer, decoded
up to the first NUL as `syscall.UTF16ToString` does. -/
structure GetPathResult where
  ret : Nat
  buf : GoString

/-- The operating system as the program sees it: one oracle per foreign procedure. -/
structure OS where
  SHGetFileInfoW : Option GoString → Nat → FileInfoResult
  SHGetImageList : Int → OutResult
  ImageListGetIcon : Ptr → Int → Nat → Nat × HICON
  GdiplusStartup : OutResult
  GdipCreateBitmapFromHICON : HICON → OutResult
  GdipSaveImageToFile : Ptr → Option GoString → CallResult
  CoInitializeEx : Nat → CallResult
  CoCreateInstance : OutResult
  QueryInterface : Ptr → Nat × Ptr
  PersistFileLoad : Ptr → Option GoString → Nat → Nat
  ShellLinkGetPath : Ptr → Nat → GetPathResult

/-- A foreign call that was made. `SHGetImageList` carries what it handed back,
so that acquisitions can be read off a trace. -/
inductive Event
  | SHGetFileInfoW (path : Option GoString) (flags : Nat)
  | SHGetImageList (sizeGroup : Int) (r1 : Nat) (p : Ptr)
  | ImageListGetIcon (iml : Ptr) (index : Int) (flags : Nat)
  | ImageListRelease (iml : Ptr)
  | DestroyIcon (h : HICON)
  | GdiplusStartup
  | GdiplusShutdown (token : Nat)
  | GdipCreateBitmapFromHICON (h : HICON)
  | GdipSaveImageToFile (img : Ptr) (path : Option GoString)
  | GdipDisposeImage (img : Ptr)
  | CoInitializeEx (flags : Nat)
  | CoUninitialize
  | CoCreateInstance
  | QueryInterface (pThis : Ptr)
  | ShellLinkRelease (sl : Ptr)
  | PersistFileRelease (pf : Ptr)
  | PersistFileLoad (pf : Ptr) (file : Option GoString) (mode : Nat)
  | ShellLinkGetPath (sl : Ptr) (flags : Nat)
  deriving DecidableEq, Repr

abbrev Trace := List Event

/-- How a Go function call ends: it returns values, or it panics. -/
inductive Outcome (α : Type)
  | returned (v : α)
  | panicked
  deriving DecidableEq, Repr

/-- The value `int32(ret)` of a `uintptr`. -/
def toInt32 (ret : Nat) : Int :=
  let low : Nat := ret % 2 ^ 32
  if low < 2 ^ 31 then (low : Int) else (low : Int) - 2 ^ 32

/-! ## Icon locator -/

def getSysIconIndex (os : OS) (path : GoString) : (Int × Option GoError) × Trace :=
  let p := UTF16PtrFromString path
  let r := os.SHGetFileInfoW p SHGFI_SYSICONINDEX
  let t := [Event.SHGetFileInfoW p SHGFI_SYSICONINDEX]
  if r.r1 = 0 then
    if r.lastErr ≠ 0 then ((0, some (.errno r.lastErr)), t)
    else ((0, some (.new "SHGetFileInfoW (SYSICONINDEX) failed")), t)
  else ((r.iIcon, none), t)

def getImageList (os : OS) (sizeGroup : Int) : (Ptr × Option GoError) × Trace :=
  let r := os.SHGetImageList sizeGroup
  let t := [Event.SHGetImageList sizeGroup r.r1 r.out]
  if r.r1 ≠ 0 then
    if r.lastErr ≠ 0 then ((0, some (.errno r.lastErr)), t)
    else ((0, some (.errorfNat "SHGetImageList failed: 0x%x" r.r1)), t)
  else ((r.out, none), t)

/-- The method `(*IImageList).GetIcon` on a non-nil receiver: status and `*phicon`. -/
def ImageListGetIcon (os : OS) (iml : Ptr) (i : Int) (flags : Nat) : (Int × HICON) × Trace :=
  let r := os.ImageListGetIcon iml i flags
  ((toInt32 r.1, r.2), [Event.ImageListGetIcon iml i flags])

def getIconWithSizeByIndex (os : OS) (index : Int) (sizeGroup : Int) :
    Outcome (HICON × Option GoError) × Trace :=
  match getImageList os sizeGroup with
  | ((_, some err), t) => (.returned (0, some err), t)
  | ((iml, none), t) =>
    -- defer iml.Release()
    if iml = 0 then
      -- GetIcon faults on the nil receiver, and so does the deferred Release
      (.panicked, t)
    else
      let g := ImageListGetIcon os iml index ILD_NORMAL
      if g.1.1 ≠ 0 ∨ g.1.2 = 0 then
        (.returned (0, some (.new "IImageList.GetIcon failed")),
          t ++ g.2 ++ [Event.ImageListRelease iml])
      else
        (.returned (g.1.2, none), t ++ g.2 ++ [Event.ImageListRelease iml])

def SHGetFileIconFallback (os : OS) (path : GoString) (large : Bool) :
    (HICON × Option GoError) × Trace :=
  let ptr := UTF16PtrFromString path
  let flags := if large then SHGFI_ICON ||| SHGFI_LARGEICON else SHGFI_ICON ||| SHGFI_SMALLICON
  let r := os.SHGetFileInfoW ptr flags
  let t := [Event.SHGetFileInfoW ptr flags]
  if r.r1 = 0 ∨ r.hIcon = 0 then
    if r.lastErr ≠ 0 then ((0, some (.errno r.lastErr)), t)
    else ((0, some (.new "SHGetFileInfoW failed")), t)
  else ((r.hIcon, none), t)

def DestroyIcon (h : HICON) : Trace :=
  if h ≠ 0 then [Event.DestroyIcon h] else []

def pickSizeGroup (sz : IconSize) : Int :=
  if sz = SizeS then SHIL_SMALL
  else if sz = SizeM then SHIL_LARGE
  else if sz = SizeL then SHIL_EXTRALARGE
  else if sz = SizeXL then SHIL_JUMBO
  else SHIL_EXTRALARGE

/-- The switch that ends `getIconForPathWithSize`. -/
def fallbackForSize (os : OS) (path : GoString) (sz : IconSize) :
    (HICON × Option GoError) × Trace :=
  if sz = SizeS then SHGetFileIconFallback os path false
  else SHGetFileIconFallback os path true

def getIconForPathWithSize (os : OS) (path : GoString) (sz : IconSize) :
    Outcome (HICON × Option GoError) × Trace :=
  match getSysIconIndex os path with
  | ((index, none), t0) =>
    match getIconWithSizeByIndex os index (pickSizeGroup sz) with
    | (.panicked, t1) => (.panicked, t0 ++ t1)
    | (.returned (h, err2), t1) =>
      if err2 = none ∧ h ≠ 0 then (.returned (h, none), t0 ++ t1)
      else
        let f := fallbackForSize os path sz
        (.returned f.1, t0 ++ t1 ++ f.2)
  | ((_, some _), t0) =>
    let f := fallbackForSize os path sz
    (.returned f.1, t0 ++ f.2)

/-! ## Icon-to-image converter -/

def gdiplusStartup (os : OS) : (Nat × Option GoError) × Trace :=
  let r := os.GdiplusStartup
  let t := [Event.GdiplusStartup]
  if r.r1 ≠ 0 then
    if r.lastErr ≠ 0 then ((0, some (.errno r.lastErr)), t)
    else ((0, some (.errorfNat "GdiplusStartup failed, status=%d" r.r1)), t)
  else ((r.out, none), t)

def gdiplusShutdown (token : Nat) : Trace := [Event.GdiplusShutdown token]

def saveIconToPNG (os : OS) (hicon : HICON) (outPath : GoString) : Option GoError × Trace :=
  match gdiplusStartup os with
  | ((_, some err), t) => (some err, t)
  | ((token, none), t) =>
    -- defer gdiplusShutdown(token)
    let c := os.GdipCreateBitmapFromHICON hicon
    let img := c.out
    let t1 := t ++ [Event.GdipCreateBitmapFromHICON hicon]
    if c.r1 ≠ 0 ∨ img = 0 then
      if c.lastErr ≠ 0 then
        (some (.errorfErr "GdipCreateBitmapFromHICON failed: %v" (.errno c.lastErr)),
          t1 ++ gdiplusShutdown token)
      else
        (some (.errorfNat "GdipCreateBitmapFromHICON failed, status=%d" c.r1),
          t1 ++ gdiplusShutdown token)
    else
      -- defer procGdipDisposeImage.Call(img)
      let outW := UTF16PtrFromString outPath
      let w := os.GdipSaveImageToFile img outW
      let t2 := t1 ++ [Event.GdipSaveImageToFile img outW]
      if w.r1 ≠ 0 then
        if w.lastErr ≠ 0 then
          (some (.errorfErr "GdipSaveImageToFile failed: %v" (.errno w.lastErr)),
            t2 ++ [Event.GdipDisposeImage img] ++ gdiplusShutdown token)
        else
          (some (.errorfNat "GdipSaveImageToFile failed, status=%d" w.r1),
            t2 ++ [Event.GdipDisposeImage img] ++ gdiplusShutdown token)
      else (none, t2 ++ [Event.GdipDisposeImage img] ++ gdiplusShutdown token)

/-! ## Shortcut resolver -/

def coInitialize (os : OS) : Option GoError × Trace :=
  let r := os.CoInitializeEx COINIT_APARTMENTTHREADED
  let t := [Event.CoInitializeEx COINIT_APARTMENTTHREADED]
  if r.r1 ≠ 0 ∧ r.r1 ≠ 1 then
    if r.lastErr ≠ 0 then (some (.errno r.lastErr), t)
    else (some (.errorfNat "CoInitializeEx failed: 0x%x" r.r1), t)
  else (none, t)

def coUninit : Trace := [Event.CoUninitialize]

/-- The function `coCreateInstance`: the error and the pointer stored through `out`
(left nil on failure). -/
def coCreateInstance (os : OS) : (Ptr × Option GoError) × Trace :=
  let r := os.CoCreateInstance
  let t := [Event.CoCreateInstance]
  if r.r1 ≠ 0 then
    if r.lastErr ≠ 0 then ((0, some (.errno r.lastErr)), t)
    else ((0, some (.errorfNat "CoCreateInstance failed: 0x%x" r.r1)), t)
  else ((r.out, none), t)

/-- The function `queryInterface`: reading the vtable of a nil `pThis` panics. -/
def queryInterface (os : OS) (pThis : Ptr) : Outcome (Ptr × Option GoError) × Trace :=
  if pThis = 0 then (.panicked, [])
  else
    let r := os.QueryInterface pThis
    let t := [Event.QueryInterface pThis]
    if r.1 ≠ 0 then (.returned (0, some (.errorfNat "QueryInterface failed: 0x%x" r.1)), t)
    else (.returned (r.2, none), t)

/-- The method `(*IShellLinkW).Release`: nothing reaches the OS on a nil receiver. -/
def ShellLinkRelease (sl : Ptr) : Trace :=
  if sl = 0 then [] else [Event.ShellLinkRelease sl]

/-- The method `(*IPersistFile).Release`: nothing reaches the OS on a nil receiver. -/
def PersistFileRelease (pf : Ptr) : Trace :=
  if pf = 0 then [] else [Event.PersistFileRelease pf]

/-- The method `(*IPersistFile).Load` on a non-nil receiver. -/
def PersistFileLoad (os : OS) (pf : Ptr) (fileName : Option GoString) (mode : Nat) :
    Option GoError × Trace :=
  let ret := os.PersistFileLoad pf fileName mode
  let t := [Event.PersistFileLoad pf fileName mode]
  if ret ≠ 0 then (some (.errno ret), t) else (none, t)

/-- The method `(*IShellLinkW).GetPath` on a non-nil receiver: the error and the
buffer after the call. -/
def ShellLinkGetPath (os : OS) (sl : Ptr) (flags : Nat) : (Option GoError × GoString) × Trace :=
  let r := os.ShellLinkGetPath sl flags
  let t := [Event.ShellLinkGetPath sl flags]
  if r.ret ≠ 0 then ((some (.errno r.ret), r.buf), t) else ((none, r.buf), t)

def resolveShortcut (os : OS) (lnk : GoString) : Outcome (GoString × Option GoError) × Trace :=
  match coInitialize os with
  | (some err, t) => (.returned ([], some err), t)
  | (none, t) =>
    -- defer coUninit()
    match coCreateInstance os with
    | ((_, some err), t1) => (.returned ([], some err), t ++ t1 ++ coUninit)
    | ((pSLRaw, none), t1) =>
      let sl := pSLRaw
      -- defer sl.Release()
      match queryInterface os pSLRaw with
      | (.panicked, t2) => (.panicked, t ++ t1 ++ t2 ++ ShellLinkRelease sl ++ coUninit)
      | (.returned (_, some err), t2) =>
        (.returned ([], some err), t ++ t1 ++ t2 ++ ShellLinkRelease sl ++ coUninit)
      | (.returned (pPfRaw, none), t2) =>
        let pf := pPfRaw
        -- defer pf.Release()
        let pathW := UTF16PtrFromString lnk
        if pf = 0 then
          (.panicked, t ++ t1 ++ t2 ++ PersistFileRelease pf ++ ShellLinkRelease sl ++ coUninit)
        else
          match PersistFileLoad os pf pathW 0 with
          | (some err, t3) =>
            (.returned ([], some (.errorfErr "IPersistFile.Load failed: %w" err)),
              t ++ t1 ++ t2 ++ t3 ++ PersistFileRelease pf ++ ShellLinkRelease sl ++ coUninit)
          | (none, t3) =>
            match ShellLinkGetPath os sl (SLGP_RAWPATH ||| SLGP_UNCPRIORITY) with
            | ((none, buf), t4) =>
              (.returned (buf, none),
                t ++ t1 ++ t2 ++ t3 ++ t4
                  ++ PersistFileRelease pf ++ ShellLinkRelease sl ++ coUninit)
            | ((some err, _), t4) =>
              match ShellLinkGetPath os sl SLGP_SHORTPATH with
              | ((some err2, _), t5) =>
                (.returned ([], some (.errorfErr2 "IShellLinkW.GetPath failed: %v / %v" err err2)),
                  t ++ t1 ++ t2 ++ t3 ++ t4 ++ t5
                    ++ PersistFileRelease pf ++ ShellLinkRelease sl ++ coUninit)
              | ((none, buf), t5) =>
                (.returned (buf, none),
                  t ++ t1 ++ t2 ++ t3 ++ t4 ++ t5
                    ++ PersistFileRelease pf ++ ShellLinkRelease sl ++ coUninit)

/-! ## Orchestrator -/

/-- How a run of the program ends: the exit code and the foreign calls made. -/
structure Run where
  exitCode : Nat
  trace : Trace
  deriving DecidableEq, Repr

/-- Lines 552-585 of `main`, from the effective path `use` on; `t0` holds the calls
made before.  `os.Exit` leaves without running the deferred `DestroyIcon`; the
normal return runs it. -/
def mainLocateAndSave (vol : GoString → Nat) (os : OS) (size : IconSize) (use : GoString)
    (t0 : Trace) : Run :=
  match getIconForPathWithSize os use size with
  | (.panicked, t1) => ⟨2, t0 ++ t1⟩
  | (.returned (h, err), t1) =>
    if err ≠ none ∨ h = 0 then ⟨1, t0 ++ t1⟩
    else
      -- defer DestroyIcon(h)
      let out := outputName vol use size
      match saveIconToPNG os h out with
      | (some _, t2) => ⟨1, t0 ++ t1 ++ t2⟩
      | (none, t2) => ⟨0, t0 ++ t1 ++ t2 ++ DestroyIcon h⟩

/-- The function `main`, given the parsed flags and the positional arguments. -/
def main (vol : GoString → Nat) (os : OS) (flagS flagM flagL flagXL : Bool)
    (args : List GoString) : Run :=
  match args with
  | [] => ⟨2, []⟩
  | inp :: _ =>
    let size := selectSize flagS flagM flagL flagXL
    if equalFoldLnk (Ext inp) then
      match resolveShortcut os inp with
      | (.panicked, t) => ⟨2, t⟩
      | (.returned (target, err), t) =>
        if err ≠ none ∨ target = [] then ⟨1, t⟩
        else mainLocateAndSave vol os size target t
    else mainLocateAndSave vol os size inp []

/-! ## The specification's reading of the orchestrator -/

/-- The specification's suffix table. -/
def specSuffixTable : List (IconSize × String) :=
  [(SizeS, "_16"), (SizeM, "_32"), (SizeL, "_48"), (SizeXL, "_256")]

def specSizeSuffix (sz : IconSize) : GoString :=
  match specSuffixTable.lookup sz with
  | some s => utf8 s
  | none => []

/-- A file name with its extension stripped, in the specification's words: what
stands before the last dot, or the whole name when it has no dot. -/
def specStripExtension (base : GoString) : GoString :=
  if byteDot ∈ base then ((base.reverse.dropWhile (fun c => c != byteDot)).drop 1).reverse
  else base

/-- The path without its drive prefix `X:`, when it has one. -/
def specWithoutDrive : GoString → GoString
  | c :: d :: rest => if isDriveLetter c && d == byteColon then rest else c :: d :: rest
  | p => p

/-- The components of a path, read from left to right: the maximal runs of bytes
other than separators.  `cur` is the run being read. -/
def specComponentsFrom : GoString → GoString → List GoString
  | [], cur => if cur = [] then [] else [cur]
  | c :: rest, cur =>
    if IsPathSeparator c then
      if cur = [] then specComponentsFrom rest [] else cur :: specComponentsFrom rest []
    else specComponentsFrom rest (cur ++ [c])

/-- The components of a path after its drive prefix. -/
def specComponents (path : GoString) : List GoString :=
  specComponentsFrom (specWithoutDrive path) []

/-- The base filename of a path, in the specification's words: the name of the file
or folder the path ends in, that is its last component; empty when the path has no
component, as a drive root. -/
def specBaseName (path : GoString) : GoString :=
  match (specComponents path).getLast? with
  | some name => name
  | none => []

/-- The output file name as the specification describes it: the base filename with
its extension stripped, `icon` when nothing is left, then the size suffix and
`.png`. -/
def specOutputName (path : GoString) (sz : IconSize) : GoString :=
  let stem := specStripExtension (specBaseName path)
  (if stem = [] then utf8 "icon" else stem) ++ specSizeSuffix sz ++ utf8 ".png"

/-- The paths on which every release of Go finds the same volume name: those that
start with a drive letter and a colon, and the relative ones. -/
def driveOrRelative : GoString → Bool
  | [] => true
  | [c] => !IsPathSeparator c
  | c :: d :: _ =>
    (isDriveLetter c && d == byteColon) || (!IsPathSeparator c && d != byteColon)

/-- The path `q` ends in the component `name`: a non-empty run of bytes other than
separators, preceded by nothing or by a separator, followed by separators only. -/
def EndsInComponent (q name : GoString) : Prop :=
  ∃ pre trail, q = pre ++ name ++ trail ∧ name ≠ []
    ∧ (∀ c ∈ name, IsPathSeparator c = false)
    ∧ (∀ c ∈ trail, IsPathSeparator c = true)
    ∧ (pre = [] ∨ ∃ pre' s, pre = pre' ++ [s] ∧ IsPathSeparator s = true)

/-! ## Reading resources off a trace -/

/-- The image-list references a trace acquired: the pointers handed back by the
`SHGetImageList` calls that reported success. -/
def acquiredImageLists (t : Trace) : List Ptr :=
  t.filterMap fun e =>
    match e with
    | .SHGetImageList _ r1 p => if r1 = 0 then some p else none
    | _ => none

/-- The image-list references a trace released. -/
def releasedImageLists (t : Trace) : List Ptr :=
  t.filterMap fun e =>
    match e with
    | .ImageListRelease p => some p
    | _ => none

/-- The size groups a trace asked `SHGetImageList` for. -/
def requestedGroups (t : Trace) : List Int :=
  t.filterMap fun e =>
    match e with
    | .SHGetImageList g _ _ => some g
    | _ => none

/-- The bitmap objects a trace disposed of. -/
def disposedImages (t : Trace) : List Ptr :=
  t.filterMap fun e =>
    match e with
    | .GdipDisposeImage img => some img
    | _ => none

/-- The GDI+ tokens a trace shut down. -/
def shutdownTokens (t : Trace) : List Nat :=
  t.filterMap fun e =>
    match e with
    | .GdiplusShutdown token => some token
    | _ => none

/-- The icon handles a trace destroyed. -/
def destroyedIcons (t : Trace) : List HICON :=
  t.filterMap fun e =>
    match e with
    | .DestroyIcon h => some h
    | _ => none

/-- Tier 1 of `getIconForPathWithSize` fails in one of the ways the specification
names: the index lookup errors, the image list cannot be acquired, or `GetIcon`
reports a non-zero status or stores a null handle. -/
def tier1Fails (os : OS) (path : GoString) (sz : IconSize) : Prop :=
  (getSysIconIndex os path).1.2 ≠ none
  ∨ ((getSysIconIndex os path).1.2 = none
      ∧ (getImageList os (pickSizeGroup sz)).1.2 ≠ none)
  ∨ ((getSysIconIndex os path).1.2 = none
      ∧ (getImageList os (pickSizeGroup sz)).1.2 = none
      ∧ (getImageList os (pickSizeGroup sz)).1.1 ≠ 0
      ∧ ((ImageListGetIcon os (getImageList os (pickSizeGroup sz)).1.1
            (getSysIconIndex os path).1.1 ILD_NORMAL).1.1 ≠ 0
          ∨ (ImageListGetIcon os (getImageList os (pickSizeGroup sz)).1.1
            (getSysIconIndex os path).1.1 ILD_NORMAL).1.2 = 0))

/-! ## Sample worlds -/

/-- A world in which every call succeeds. -/
def osHealthy : OS where
  SHGetFileInfoW := fun _ flags =>
    if flags = SHGFI_SYSICONINDEX then ⟨1, 0, 3, 0⟩ else ⟨1, 0x51, 0, 0⟩
  SHGetImageList := fun _ => ⟨0, 0x1000, 0⟩
  ImageListGetIcon := fun _ _ _ => (0, 0x77)
  GdiplusStartup := ⟨0, 0x2000, 0⟩
  GdipCreateBitmapFromHICON := fun _ => ⟨0, 0x3000, 0⟩
  GdipSaveImageToFile := fun _ _ => ⟨0, 0⟩
  CoInitializeEx := fun _ => ⟨0, 0⟩
  CoCreateInstance := ⟨0, 0x4000, 0⟩
  QueryInterface := fun _ => (0, 0x5000)
  PersistFileLoad := fun _ _ _ => 0
  ShellLinkGetPath := fun _ _ => ⟨0, utf8 "C:\\Target\\App.exe"⟩

/-- The healthy world, except that `SHGetImageList` reports `E_FAIL`. -/
def osNoImageList : OS :=
  { osHealthy with SHGetImageList := fun _ => ⟨0x80004005, 0, 0⟩ }

/-- The healthy world, except that `GetIcon` stores no handle. -/
def osNullIcon : OS :=
  { osHealthy with ImageListGetIcon := fun _ _ _ => (0, 0) }

/-- The healthy world, except that `GdipSaveImageToFile` reports status 7
(`Win32Error`), as it does when the file cannot be written. -/
def osSaveFails : OS :=
  { osHealthy with GdipSaveImageToFile := fun _ _ => ⟨7, 0⟩ }

/-- The healthy world, except that the shell link object cannot be queried for
`IPersistFile`. -/
def osNoPersistFile : OS :=
  { osHealthy with QueryInterface := fun _ => (0x80004002, 0) }

/-! ## Facts about the path functions -/

theorem extLoop_eq (r : GoString) (hr : ∀ c ∈ r, IsPathSeparator c = false) (acc : GoString) :
    extLoop r acc =
      if byteDot ∈ r then byteDot :: ((r.takeWhile (fun c => c != byteDot)).reverse ++ acc)
      else [] := by
  induction r generalizing acc with
  | nil => simp [extLoop]
  | cons c rest ih =>
    have hc : IsPathSeparator c = false := hr c (List.mem_cons_self _ _)
    have hrest : ∀ d ∈ rest, IsPathSeparator d = false :=
      fun d hd => hr d (List.mem_cons_of_mem _ hd)
    by_cases hdot : c = byteDot
    · subst hdot
      simp [extLoop, hc, List.takeWhile]
    · have hne : (c != byteDot) = true := by simpa using hdot
      have hne2 : ¬ byteDot = c := fun h => hdot h.symm
      simp only [extLoop, hc, hdot, ih hrest, List.mem_cons, hne2, false_or,
        List.takeWhile_cons, hne, if_true, if_false, Bool.false_eq_true]
      split <;> simp

theorem stem_eq_specStripExtension (b : GoString) (hb : ∀ c ∈ b, IsPathSeparator c = false) :
    b.take (b.length - (Ext b).length) = specStripExtension b := by
  have hr : ∀ c ∈ b.reverse, IsPathSeparator c = false := fun c hc => hb c (List.mem_reverse.1 hc)
  unfold Ext specStripExtension
  rw [extLoop_eq _ hr]
  by_cases hdot : byteDot ∈ b
  · have hdot2 : byteDot ∈ b.reverse := List.mem_reverse.2 hdot
    simp only [hdot, hdot2, if_true]
    have hsplit := List.takeWhile_append_dropWhile (fun c => c != byteDot) b.reverse
    obtain ⟨d, rest, hd⟩ : ∃ d rest, b.reverse.dropWhile (fun c => c != byteDot) = d :: rest := by
      cases hdw : b.reverse.dropWhile (fun c => c != byteDot) with
      | nil =>
        exfalso
        rw [List.dropWhile_eq_nil_iff] at hdw
        have := hdw _ hdot2
        simp at this
      | cons d rest => exact ⟨d, rest, rfl⟩
    have hb2 : b = rest.reverse ++ d :: (b.reverse.takeWhile (fun c => c != byteDot)).reverse := by
      have h1 : b.reverse.reverse
          = (b.reverse.takeWhile (fun c => c != byteDot) ++ d :: rest).reverse := by
        rw [← hd, hsplit]
      simpa using h1
    rw [hd]
    simp only [List.drop_succ_cons, List.drop_zero, List.append_nil, List.length_cons,
      List.length_reverse]
    have hlen : b.length
        = rest.length + ((b.reverse.takeWhile (fun c => c != byteDot)).length + 1) := by
      conv_lhs => rw [hb2]
      simp
    have htake : b.length - ((b.reverse.takeWhile (fun c => c != byteDot)).length + 1)
        = rest.reverse.length := by
      rw [List.length_reverse]; omega
    rw [htake]
    conv_lhs => rw [hb2]
    simp
  · have hdot2 : ¬ byteDot ∈ b.reverse := fun h => hdot (List.mem_reverse.1 h)
    simp [hdot, hdot2]

theorem lastElement_no_separator (p : GoString) :
    ∀ c ∈ lastElement p, IsPathSeparator c = false := by
  intro c hc
  unfold lastElement at hc
  have h := List.mem_takeWhile_imp (List.mem_reverse.1 hc)
  simpa using h

/-- What `filepath.Base` returns is a single separator or holds no separator. -/
theorem Base_cases (vol : GoString → Nat) (path : GoString) :
    Base vol path = [Separator] ∨ ∀ c ∈ Base vol path, IsPathSeparator c = false := by
  unfold Base
  by_cases h : path = []
  · right
    simp only [h, if_true]
    decide
  · simp only [h, if_false]
    split
    · left; rfl
    · right; exact lastElement_no_separator _

/-- The stem `main` computes is the extension-free part of what `filepath.Base`
returns, or `icon`. -/
theorem outputStem_eq_spec (vol : GoString → Nat) (path : GoString) :
    outputStem vol path
      = (if specStripExtension (Base vol path) = [] then utf8 "icon"
          else specStripExtension (Base vol path)) := by
  unfold outputStem
  rcases Base_cases vol path with h | h
  · simp only [h]
    decide
  · simp only [stem_eq_specStripExtension _ h]

theorem sizeSuffix_eq_spec (sz : IconSize) (h : sz ∈ sizeClasses) :
    sizeSuffix sz = specSizeSuffix sz := by
  simp only [sizeClasses, List.mem_cons, List.mem_singleton, List.not_mem_nil, or_false] at h
  rcases h with h | h | h | h <;> subst h <;> decide

/-! ## `filepath.Base` against the last component of the path -/

theorem dropWhile_append_stop {p : UInt8 → Bool} (xs : GoString) (y : UInt8) (ys : GoString)
    (hy : p y = false) : (xs ++ y :: ys).dropWhile p = xs.dropWhile p ++ y :: ys := by
  induction xs with
  | nil => simp [List.dropWhile_cons, hy]
  | cons x xs ih =>
    by_cases hx : p x = true
    · simp [List.dropWhile_cons, hx, ih]
    · simp [List.dropWhile_cons, hx]

theorem takeWhile_append_stop {p : UInt8 → Bool} (xs : GoString) (y : UInt8) (ys : GoString)
    (hy : p y = false) : (xs ++ y :: ys).takeWhile p = xs.takeWhile p := by
  induction xs with
  | nil => simp [List.takeWhile_cons, hy]
  | cons x xs ih =>
    by_cases hx : p x = true
    · simp [List.takeWhile_cons, hx, ih]
    · simp [List.takeWhile_cons, hx]

/-- Stripping leaves what stands before a byte that is no separator. -/
theorem strip_append_keep (l : GoString) (b : UInt8) (r : GoString)
    (hb : IsPathSeparator b = false) :
    stripTrailingSeparators (l ++ b :: r) = l ++ b :: stripTrailingSeparators r := by
  unfold stripTrailingSeparators
  have : (l ++ b :: r).reverse = r.reverse ++ b :: l.reverse := by simp
  rw [this, dropWhile_append_stop _ _ _ hb]
  simp

theorem strip_all_separators (t : GoString) (ht : ∀ c ∈ t, IsPathSeparator c = true) :
    stripTrailingSeparators t = [] := by
  unfold stripTrailingSeparators
  rw [List.reverse_eq_nil_iff, List.dropWhile_eq_nil_iff]
  intro c hc
  exact ht c (List.mem_reverse.1 hc)

theorem lastElement_append_keep (l : GoString) (s : UInt8) (n : GoString)
    (hs : IsPathSeparator s = true) (hn : ∀ c ∈ n, IsPathSeparator c = false) :
    lastElement (l ++ s :: n) = n := by
  unfold lastElement
  have : (l ++ s :: n).reverse = n.reverse ++ s :: l.reverse := by simp
  rw [this, takeWhile_append_stop _ _ _ (by simp [hs])]
  have h2 : n.reverse.takeWhile (fun c => !IsPathSeparator c) = n.reverse := by
    rw [List.takeWhile_eq_self_iff]
    intro c hc
    simp [hn c (List.mem_reverse.1 hc)]
  rw [h2, List.reverse_reverse]

theorem lastElement_of_no_separator (n : GoString) (hn : ∀ c ∈ n, IsPathSeparator c = false) :
    lastElement n = n := by
  unfold lastElement
  have h2 : n.reverse.takeWhile (fun c => !IsPathSeparator c) = n.reverse := by
    rw [List.takeWhile_eq_self_iff]
    intro c hc
    simp [hn c (List.mem_reverse.1 hc)]
  rw [h2, List.reverse_reverse]

theorem endsInComponent_or_separators (q : GoString) :
    (∀ c ∈ q, IsPathSeparator c = true) ∨ ∃ name, EndsInComponent q name := by
  induction q using List.reverseRecOn with
  | nil => left; simp
  | append_singleton q a ih =>
    by_cases ha : IsPathSeparator a = true
    · rcases ih with h | ⟨name, pre, trail, hq, h1, h2, h3, h4⟩
      · left
        intro c hc
        rcases List.mem_append.1 hc with hc | hc
        · exact h c hc
        · simp at hc; subst hc; exact ha
      · right
        refine ⟨name, pre, trail ++ [a], by simp [hq], h1, h2, ?_, h4⟩
        intro c hc
        rcases List.mem_append.1 hc with hc | hc
        · exact h3 c hc
        · simp at hc; subst hc; exact ha
    · have ha' : IsPathSeparator a = false := by simpa using ha
      right
      rcases ih with h | ⟨name, pre, trail, hq, h1, h2, h3, h4⟩
      · refine ⟨[a], q, [], by simp, by simp, by simpa using ha', by simp, ?_⟩
        rcases List.eq_nil_or_concat q with h0 | ⟨L, b, h0⟩
        · left; exact h0
        · right
          refine ⟨L, b, by simpa using h0, ?_⟩
          apply h
          rw [h0]; simp
      · rcases List.eq_nil_or_concat trail with h0 | ⟨L, b, h0⟩
        · subst h0
          refine ⟨name ++ [a], pre, [], by simp [hq], by simp, ?_, by simp, h4⟩
          intro c hc
          rcases List.mem_append.1 hc with hc | hc
          · exact h2 c hc
          · simp at hc; subst hc; exact ha'
        · refine ⟨[a], q, [], by simp, by simp, by simpa using ha', by simp, ?_⟩
          right
          refine ⟨pre ++ name ++ L, b, ?_, ?_⟩
          · rw [hq, h0]; simp
          · apply h3; rw [h0]; simp

theorem specComponentsFrom_run (n r cur : GoString)
    (hn : ∀ c ∈ n, IsPathSeparator c = false) :
    specComponentsFrom (n ++ r) cur = specComponentsFrom r (cur ++ n) := by
  induction n generalizing cur with
  | nil => simp
  | cons c n ih =>
    have hc : IsPathSeparator c = false := hn c (List.mem_cons_self _ _)
    have hn' : ∀ d ∈ n, IsPathSeparator d = false := fun d hd => hn d (List.mem_cons_of_mem _ hd)
    have e : specComponentsFrom (c :: n ++ r) cur = specComponentsFrom (n ++ r) (cur ++ [c]) := by
      simp [specComponentsFrom, hc]
    rw [e, ih _ hn']
    simp

theorem specComponentsFrom_separators (t cur : GoString)
    (ht : ∀ c ∈ t, IsPathSeparator c = true) :
    specComponentsFrom t cur = if cur = [] then [] else [cur] := by
  induction t generalizing cur with
  | nil => simp [specComponentsFrom]
  | cons c t ih =>
    have hc : IsPathSeparator c = true := ht c (List.mem_cons_self _ _)
    have ht' : ∀ d ∈ t, IsPathSeparator d = true := fun d hd => ht d (List.mem_cons_of_mem _ hd)
    simp only [specComponentsFrom, hc, if_true, ih _ ht']

theorem specComponentsFrom_after_separator (pre : GoString) (s : UInt8) (r cur : GoString)
    (hs : IsPathSeparator s = true) :
    ∃ A, specComponentsFrom (pre ++ s :: r) cur = A ++ specComponentsFrom r [] := by
  induction pre generalizing cur with
  | nil =>
    by_cases hcur : cur = []
    · exact ⟨[], by simp [specComponentsFrom, hs, hcur]⟩
    · exact ⟨[cur], by simp [specComponentsFrom, hs, hcur]⟩
  | cons c pre ih =>
    by_cases hc : IsPathSeparator c = true
    · obtain ⟨A, hA⟩ := ih []
      by_cases hcur : cur = []
      · exact ⟨A, by simp [specComponentsFrom, hc, hcur, hA]⟩
      · exact ⟨cur :: A, by simp [specComponentsFrom, hc, hcur, hA]⟩
    · obtain ⟨A, hA⟩ := ih (cur ++ [c])
      exact ⟨A, by simp [specComponentsFrom, hc, hA]⟩

theorem specComponentsFrom_endsIn (q name : GoString) (h : EndsInComponent q name) :
    (specComponentsFrom q []).getLast? = some name := by
  obtain ⟨pre, trail, hq, h1, h2, h3, h4⟩ := h
  have htail : specComponentsFrom (name ++ trail) [] = [name] := by
    rw [specComponentsFrom_run _ _ _ h2, specComponentsFrom_separators _ _ h3]
    simp [h1]
  rcases h4 with h0 | ⟨pre', s, h0, hs⟩
  · subst h0
    rw [hq]
    simp only [List.nil_append]
    rw [htail]; rfl
  · obtain ⟨A, hA⟩ := specComponentsFrom_after_separator pre' s (name ++ trail) [] hs
    have : q = pre' ++ s :: (name ++ trail) := by rw [hq, h0]; simp
    rw [this, hA, htail, List.getLast?_concat]

theorem strip_endsIn (pre name trail : GoString) (h1 : name ≠ [])
    (h2 : ∀ c ∈ name, IsPathSeparator c = false) (h3 : ∀ c ∈ trail, IsPathSeparator c = true) :
    stripTrailingSeparators (pre ++ name ++ trail) = pre ++ name := by
  rcases List.eq_nil_or_concat name with h0 | ⟨L, b, h0⟩
  · exact absurd h0 h1
  · have hb : IsPathSeparator b = false := h2 b (by rw [h0]; simp)
    have : pre ++ name ++ trail = (pre ++ L) ++ b :: trail := by rw [h0]; simp
    rw [this, strip_append_keep _ _ _ hb, strip_all_separators _ h3, h0]
    simp

theorem lastElement_endsIn (pre name : GoString)
    (h2 : ∀ c ∈ name, IsPathSeparator c = false)
    (h4 : pre = [] ∨ ∃ pre' s, pre = pre' ++ [s] ∧ IsPathSeparator s = true) :
    lastElement (pre ++ name) = name := by
  rcases h4 with h0 | ⟨pre', s, h0, hs⟩
  · subst h0; simpa using lastElement_of_no_separator name h2
  · have : pre ++ name = pre' ++ s :: name := by rw [h0]; simp
    rw [this, lastElement_append_keep _ _ _ hs h2]

theorem volumeNameLen_drive (vol : GoString → Nat) (x y : UInt8) (m : GoString)
    (hx : isDriveLetter x = true) (hy : y = byteColon) :
    volumeNameLen vol (x :: y :: m) = 2 := by
  subst hy
  simp [volumeNameLen, hx]

theorem volumeNameLen_single (vol : GoString → Nat) (x : UInt8)
    (hx : IsPathSeparator x = false) : volumeNameLen vol [x] = 0 := by
  simp [volumeNameLen, hx]

theorem volumeNameLen_relative (vol : GoString → Nat) (x y : UInt8) (m : GoString)
    (hx : IsPathSeparator x = false) (hy : y ≠ byteColon) :
    volumeNameLen vol (x :: y :: m) = 0 := by
  simp [volumeNameLen, hx, hy]

/-- Where the volume name ends before the last component, `filepath.Base` returns
that component. -/
theorem Base_eq_component (vol : GoString → Nat) (front back name trail : GoString)
    (h1 : name ≠ []) (h2 : ∀ c ∈ name, IsPathSeparator c = false)
    (h3 : ∀ c ∈ trail, IsPathSeparator c = true)
    (h4 : back = [] ∨ ∃ pre' s, back = pre' ++ [s] ∧ IsPathSeparator s = true)
    (hv : volumeNameLen vol (front ++ back ++ name) = front.length) :
    Base vol (front ++ back ++ name ++ trail) = name := by
  have hne : front ++ back ++ name ++ trail ≠ [] := by
    cases name with
    | nil => exact absurd rfl h1
    | cons c n => simp
  unfold Base
  simp only [hne, if_false]
  rw [strip_endsIn (front ++ back) name trail h1 h2 h3, hv]
  have hdrop : (front ++ back ++ name).drop front.length = back ++ name := by
    rw [List.append_assoc, List.drop_left]
  rw [hdrop, lastElement_endsIn back name h2 h4]
  simp [h1]

theorem specBaseName_of_endsIn (path name : GoString)
    (h : EndsInComponent (specWithoutDrive path) name) : specBaseName path = name := by
  unfold specBaseName specComponents
  rw [specComponentsFrom_endsIn _ _ h]

theorem specBaseName_of_separators (path : GoString)
    (h : ∀ c ∈ specWithoutDrive path, IsPathSeparator c = true) : specBaseName path = [] := by
  unfold specBaseName specComponents
  rw [specComponentsFrom_separators _ _ h]
  rfl

theorem endsInComponent_ne_nil (q name : GoString) (h : EndsInComponent q name) : name ≠ [] := by
  obtain ⟨_, _, _, h1, _⟩ := h
  exact h1

/-- On a drive-letter or relative path that has a last component, `filepath.Base`
returns that component. -/
theorem Base_eq_specBaseName (vol : GoString → Nat) (path : GoString)
    (hd : driveOrRelative path = true) (hn : specBaseName path ≠ []) :
    Base vol path = specBaseName path := by
  have hcomp : ∃ name, EndsInComponent (specWithoutDrive path) name := by
    rcases endsInComponent_or_separators (specWithoutDrive path) with h | h
    · exact absurd (specBaseName_of_separators path h) hn
    · exact h
  obtain ⟨name, hname⟩ := hcomp
  rw [specBaseName_of_endsIn path name hname]
  obtain ⟨pre, trail, hq, h1, h2, h3, h4⟩ := hname
  match path, hd, hq with
  | [], _, hq =>
    exfalso
    simp only [specWithoutDrive] at hq
    cases name with
    | nil => exact h1 rfl
    | cons c n => simp at hq
  | [x], hd, hq =>
    have hx : IsPathSeparator x = false := by simpa [driveOrRelative] using hd
    simp only [specWithoutDrive] at hq
    have hpath : [x] = [] ++ pre ++ name ++ trail := by simpa using hq
    rw [hpath]
    apply Base_eq_component vol [] pre name trail h1 h2 h3 h4
    have hlen : (pre ++ name ++ trail).length = 1 := by rw [← hq]; rfl
    have hpn : pre ++ name = [x] := by
      cases hpn : pre ++ name with
      | nil =>
        exfalso
        cases name with
        | nil => exact h1 rfl
        | cons c n => simp at hpn
      | cons a m =>
        rw [hpn] at hq hlen
        simp only [List.cons_append, List.cons.injEq] at hq
        simp only [List.cons_append, List.length_cons, List.length_append] at hlen
        have hm : m = [] := List.eq_nil_of_length_eq_zero (by omega)
        rw [hm, ← hq.1]
    simp only [List.nil_append, hpn]
    exact volumeNameLen_single vol x hx
  | x :: y :: rest, hd, hq =>
    by_cases hdrive : (isDriveLetter x && y == byteColon) = true
    · have hx : isDriveLetter x = true := by
        simp only [Bool.and_eq_true] at hdrive; exact hdrive.1
      have hy : y = byteColon := by
        simp only [Bool.and_eq_true, beq_iff_eq] at hdrive; exact hdrive.2
      simp only [specWithoutDrive, hdrive, if_true] at hq
      have hpath : x :: y :: rest = [x, y] ++ pre ++ name ++ trail := by
        rw [hq]; simp
      rw [hpath]
      apply Base_eq_component vol [x, y] pre name trail h1 h2 h3 h4
      have : [x, y] ++ pre ++ name = x :: y :: (pre ++ name) := by simp
      rw [this]
      exact volumeNameLen_drive vol x y _ hx hy
    · have hrel : IsPathSeparator x = false ∧ y ≠ byteColon := by
        simp only [driveOrRelative, hdrive, Bool.false_or, Bool.and_eq_true,
          Bool.not_eq_true', bne_iff_ne, ne_eq] at hd
        exact hd
      simp only [specWithoutDrive, hdrive, Bool.false_eq_true, if_false] at hq
      have hpath : x :: y :: rest = [] ++ pre ++ name ++ trail := by simpa using hq
      rw [hpath]
      apply Base_eq_component vol [] pre name trail h1 h2 h3 h4
      simp only [List.nil_append, List.length_nil]
      cases hpn : pre ++ name with
      | nil =>
        exfalso
        cases name with
        | nil => exact h1 rfl
        | cons c n => simp at hpn
      | cons a m =>
        rw [hpn] at hq
        simp only [List.cons_append, List.cons.injEq] at hq
        obtain ⟨hxa, hrest⟩ := hq
        subst hxa
        cases m with
        | nil => exact volumeNameLen_single vol x hrel.1
        | cons b m' =>
          simp only [List.cons_append, List.cons.injEq] at hrest
          obtain ⟨hyb, _⟩ := hrest
          subst hyb
          exact volumeNameLen_relative vol x y m' hrel.1 hrel.2

/-- On a drive-letter or relative path without a component, other than the empty
path, `filepath.Base` returns the separator: such a path is a drive root. -/
theorem Base_drive_root (vol : GoString → Nat) (path : GoString)
    (hd : driveOrRelative path = true) (hn : specBaseName path = []) (hne : path ≠ []) :
    Base vol path = [Separator] := by
  have hsep : ∀ c ∈ specWithoutDrive path, IsPathSeparator c = true := by
    rcases endsInComponent_or_separators (specWithoutDrive path) with h | ⟨name, h⟩
    · exact h
    · exact absurd ((specBaseName_of_endsIn path name h).symm.trans hn)
        (endsInComponent_ne_nil _ _ h)
  match path, hd, hne, hsep with
  | [], _, hne, _ => exact absurd rfl hne
  | [x], hd, _, hsep =>
    exfalso
    have hx : IsPathSeparator x = false := by simpa [driveOrRelative] using hd
    have := hsep x (by simp [specWithoutDrive])
    rw [hx] at this
    exact Bool.false_ne_true this
  | x :: y :: rest, hd, _, hsep =>
    by_cases hdrive : (isDriveLetter x && y == byteColon) = true
    · have hx : isDriveLetter x = true := by
        simp only [Bool.and_eq_true] at hdrive; exact hdrive.1
      have hy : y = byteColon := by
        simp only [Bool.and_eq_true, beq_iff_eq] at hdrive; exact hdrive.2
      simp only [specWithoutDrive, hdrive, if_true] at hsep
      have hycol : IsPathSeparator y = false := by rw [hy]; decide
      have hstrip : stripTrailingSeparators (x :: y :: rest) = [x, y] := by
        have : x :: y :: rest = [x] ++ y :: rest := rfl
        rw [this, strip_append_keep _ _ _ hycol, strip_all_separators _ hsep]
        rfl
      unfold Base
      simp only [List.cons_ne_nil, if_false, hstrip, volumeNameLen_drive vol x y [] hx hy]
      rfl
    · exfalso
      have hrel : IsPathSeparator x = false ∧ y ≠ byteColon := by
        simp only [driveOrRelative, hdrive, Bool.false_or, Bool.and_eq_true,
          Bool.not_eq_true', bne_iff_ne, ne_eq] at hd
        exact hd
      simp only [specWithoutDrive, hdrive, Bool.false_eq_true, if_false] at hsep
      have := hsep x (List.mem_cons_self _ _)
      rw [hrel.1] at this
      exact Bool.false_ne_true this

/-! ## Claims about size selection and the output name -/

theorem volumeNameLen_of_agreed (vol : GoString → Nat) (p : GoString)
    (h : volumeAgreed p = true) : volumeNameLen vol p = volumeNameLen noVolume p := by
  unfold volumeAgreed at h
  unfold volumeNameLen
  by_cases h1 : (decide (p.length ≥ 2) && isDriveLetter (p.getD 0 0)
      && p.getD 1 0 == byteColon) = true
  · simp only [h1, if_true]
  · simp only [h1, Bool.false_or, Bool.false_eq_true, if_false] at h ⊢
    simp only [h, if_true]

theorem Base_of_agreed (vol : GoString → Nat) (path : GoString)
    (h : volumeAgreed (stripTrailingSeparators path) = true) :
    Base vol path = Base noVolume path := by
  unfold Base
  dsimp only
  rw [volumeNameLen_of_agreed vol _ h]

theorem outputName_of_agreed (vol : GoString → Nat) (path : GoString) (sz : IconSize)
    (h : volumeAgreed (stripTrailingSeparators path) = true) :
    outputName vol path sz = outputName noVolume path sz := by
  unfold outputName outputStem
  rw [Base_of_agreed vol path h]

theorem main_of_agreed (vol : GoString → Nat) (os : OS) (flagS flagM flagL flagXL : Bool)
    (inp : GoString) (rest : List GoString) (hl : equalFoldLnk (Ext inp) = false)
    (h : volumeAgreed (stripTrailingSeparators inp) = true) :
    main vol os flagS flagM flagL flagXL (inp :: rest)
      = main noVolume os flagS flagM flagL flagXL (inp :: rest) := by
  unfold main
  simp only [hl, Bool.false_eq_true, if_false]
  unfold mainLocateAndSave
  rw [outputName_of_agreed vol inp _ h]

/-- C3 (the code against the specification's file name): at the drive root `C:\`,
which has no last component, `main` computes `\_48.png` where the specification's name
is `icon_48.png`.  On every drive-letter or relative path and each of the four size
classes, the name `main` computes is the specification's name (the last component of
the path with its extension stripped, `icon` when nothing is left, then the size
suffix and `.png`) exactly when the path has a last component or is empty.
`C:\a\b.txt` with M gives `b_32.png`, `C:\Target\App.exe` with L gives `App_48.png`,
`C:\dir\` gives `dir_48.png`, `C:b.txt` with S gives `b_16.png`, and every path whose
base name is `.ico` gives `icon_48.png` under the default size. -/
theorem outputName_vs_spec (vol : GoString → Nat) :
    outputName vol (utf8 "C:\\") SizeL = utf8 "\\_48.png"
    ∧ specOutputName (utf8 "C:\\") SizeL = utf8 "icon_48.png"
    ∧ (∀ (path : GoString) (sz : IconSize),
        driveOrRelative path = true → sz ∈ sizeClasses →
          (outputName vol path sz = specOutputName path sz
            ↔ (specBaseName path ≠ [] ∨ path = [])))
    ∧ outputName vol (utf8 "C:\\a\\b.txt") SizeM = utf8 "b_32.png"
    ∧ outputName vol (utf8 "C:\\Target\\App.exe") SizeL = utf8 "App_48.png"
    ∧ outputName vol (utf8 "C:\\dir\\") SizeL = utf8 "dir_48.png"
    ∧ outputName vol (utf8 "C:b.txt") SizeS = utf8 "b_16.png"
    ∧ (∀ path : GoString, Base vol path = utf8 ".ico" →
        outputName vol path (selectSize false false false false) = utf8 "icon_48.png")
    ∧ outputName vol (utf8 "C:\\x\\.ico") (selectSize false false false false)
        = utf8 "icon_48.png" := by
  refine ⟨?_, by decide, ?_, ?_, ?_, ?_, ?_, ?_, ?_⟩
  · rw [outputName_of_agreed vol _ _ (by decide)]; decide
  rotate_left
  · rw [outputName_of_agreed vol _ _ (by decide)]; decide
  · rw [outputName_of_agreed vol _ _ (by decide)]; decide
  · rw [outputName_of_agreed vol _ _ (by decide)]; decide
  · rw [outputName_of_agreed vol _ _ (by decide)]; decide
  rotate_left
  · rw [outputName_of_agreed vol _ _ (by decide)]; decide
  · intro path sz hd hsz
    constructor
    · intro heq
      by_contra hcon
      have hn : specBaseName path = [] := by
        by_contra h; exact hcon (Or.inl h)
      have hne : path ≠ [] := fun h => hcon (Or.inr h)
      have hb := Base_drive_root vol path hd hn hne
      unfold outputName specOutputName at heq
      rw [outputStem_eq_spec, hb, hn] at heq
      have h1 : specStripExtension [Separator] = [Separator] := by decide
      have h2 : specStripExtension ([] : GoString) = [] := by decide
      have h3 : utf8 "icon" = 105 :: utf8 "con" := by decide
      simp only [h1, h2, if_true, List.cons_ne_nil, if_false, h3, List.cons_append,
        List.singleton_append, List.cons.injEq] at heq
      exact absurd heq.1 (by decide)
    · rintro (hn | hp)
      · unfold outputName specOutputName
        rw [outputStem_eq_spec, Base_eq_specBaseName vol path hd hn, sizeSuffix_eq_spec sz hsz]
      · subst hp
        unfold outputName specOutputName
        rw [outputStem_eq_spec, sizeSuffix_eq_spec sz hsz]
        have h1 : specStripExtension (Base vol []) = [] := by
          rw [Base_of_agreed vol [] (by decide)]; decide
        have h2 : specStripExtension (specBaseName []) = [] := by decide
        simp only [h1, h2, if_true]
  · intro path hb
    unfold outputName outputStem
    rw [hb]
    decide

/-! ## The five ways through `getIconForPathWithSize` -/

theorem getSysIconIndex_ok_iff (os : OS) (path : GoString) :
    (getSysIconIndex os path).1.2 = none
      ↔ (os.SHGetFileInfoW (UTF16PtrFromString path) SHGFI_SYSICONINDEX).r1 ≠ 0 := by
  unfold getSysIconIndex
  by_cases h : (os.SHGetFileInfoW (UTF16PtrFromString path) SHGFI_SYSICONINDEX).r1 = 0
  · by_cases h2 : (os.SHGetFileInfoW (UTF16PtrFromString path) SHGFI_SYSICONINDEX).lastErr = 0
      <;> simp [h, h2]
  · simp [h]

theorem getSysIconIndex_value (os : OS) (path : GoString)
    (h : (getSysIconIndex os path).1.2 = none) :
    getSysIconIndex os path
      = (((os.SHGetFileInfoW (UTF16PtrFromString path) SHGFI_SYSICONINDEX).iIcon, none),
          [Event.SHGetFileInfoW (UTF16PtrFromString path) SHGFI_SYSICONINDEX]) := by
  have h1 := (getSysIconIndex_ok_iff os path).1 h
  simp [getSysIconIndex, h1]

theorem getSysIconIndex_trace (os : OS) (path : GoString) :
    (getSysIconIndex os path).2
      = [Event.SHGetFileInfoW (UTF16PtrFromString path) SHGFI_SYSICONINDEX] := by
  unfold getSysIconIndex
  dsimp only
  split_ifs <;> rfl

theorem getImageList_ok_iff (os : OS) (g : Int) :
    (getImageList os g).1.2 = none ↔ (os.SHGetImageList g).r1 = 0 := by
  unfold getImageList
  by_cases h : (os.SHGetImageList g).r1 = 0
  · simp [h]
  · by_cases h2 : (os.SHGetImageList g).lastErr = 0 <;> simp [h, h2]

theorem getImageList_trace (os : OS) (g : Int) :
    (getImageList os g).2
      = [Event.SHGetImageList g (os.SHGetImageList g).r1 (os.SHGetImageList g).out] := by
  unfold getImageList
  dsimp only
  split_ifs <;> rfl

theorem getImageList_value (os : OS) (g : Int) (h : (getImageList os g).1.2 = none) :
    getImageList os g
      = (((os.SHGetImageList g).out, none),
          [Event.SHGetImageList g (os.SHGetImageList g).r1 (os.SHGetImageList g).out]) := by
  have h1 := (getImageList_ok_iff os g).1 h
  simp [getImageList, h1]

theorem fallbackForSize_eq (os : OS) (path : GoString) (sz : IconSize) :
    fallbackForSize os path sz = SHGetFileIconFallback os path (decide (sz ≠ SizeS)) := by
  unfold fallbackForSize
  by_cases h : sz = SizeS <;> simp [h]

theorem SHGetFileIconFallback_trace (os : OS) (path : GoString) (large : Bool) :
    (SHGetFileIconFallback os path large).2
      = [Event.SHGetFileInfoW (UTF16PtrFromString path)
          (if large then SHGFI_ICON ||| SHGFI_LARGEICON else SHGFI_ICON ||| SHGFI_SMALLICON)] := by
  unfold SHGetFileIconFallback
  dsimp only
  split_ifs <;> rfl

theorem SHGetFileIconFallback_error_iff (os : OS) (path : GoString) (large : Bool) :
    (SHGetFileIconFallback os path large).1.2 = none
      ↔ (SHGetFileIconFallback os path large).1.1 ≠ 0 := by
  unfold SHGetFileIconFallback
  dsimp only
  split_ifs with h1 h2 <;> simp_all

/-- The index lookup failed: the legacy query decides. -/
theorem getIcon_indexFails (os : OS) (path : GoString) (sz : IconSize)
    (h : (getSysIconIndex os path).1.2 ≠ none) :
    getIconForPathWithSize os path sz
      = (.returned (fallbackForSize os path sz).1,
          (getSysIconIndex os path).2 ++ (fallbackForSize os path sz).2) := by
  unfold getIconForPathWithSize
  rcases hx : getSysIconIndex os path with ⟨⟨index, err⟩, t0⟩
  rw [hx] at h
  cases err with
  | none => exact absurd rfl h
  | some e => rfl

/-- The image list could not be acquired: the legacy query decides. -/
theorem getIconWithSizeByIndex_listFails (os : OS) (index g : Int)
    (h : (getImageList os g).1.2 ≠ none) :
    getIconWithSizeByIndex os index g
      = (.returned (0, (getImageList os g).1.2), (getImageList os g).2) := by
  unfold getIconWithSizeByIndex
  rcases hx : getImageList os g with ⟨⟨iml, err⟩, t⟩
  rw [hx] at h
  cases err with
  | none => exact absurd rfl h
  | some e => rfl

/-- The image list came back as a nil pointer with a success status: the call panics. -/
theorem getIconWithSizeByIndex_nil (os : OS) (index g : Int)
    (h : (getImageList os g).1.2 = none) (hp : (os.SHGetImageList g).out = 0) :
    getIconWithSizeByIndex os index g = (.panicked, (getImageList os g).2) := by
  unfold getIconWithSizeByIndex
  rw [getImageList_value os g h]
  simp [hp]

/-- The image list was acquired: `GetIcon` decides, and the list is released. -/
theorem getIconWithSizeByIndex_acquired (os : OS) (index g : Int)
    (h : (getImageList os g).1.2 = none) (hp : (os.SHGetImageList g).out ≠ 0) :
    getIconWithSizeByIndex os index g
      = (.returned
          (if (ImageListGetIcon os (os.SHGetImageList g).out index ILD_NORMAL).1.1 ≠ 0
              ∨ (ImageListGetIcon os (os.SHGetImageList g).out index ILD_NORMAL).1.2 = 0
            then (0, some (GoError.new "IImageList.GetIcon failed"))
            else ((ImageListGetIcon os (os.SHGetImageList g).out index ILD_NORMAL).1.2, none)),
          (getImageList os g).2
            ++ [Event.ImageListGetIcon (os.SHGetImageList g).out index ILD_NORMAL,
                Event.ImageListRelease (os.SHGetImageList g).out]) := by
  unfold getIconWithSizeByIndex
  rw [getImageList_value os g h]
  simp only [hp, if_false]
  split_ifs <;> simp [ImageListGetIcon]

/-- The result and the trace of `getIconForPathWithSize` in terms of what the OS
hands back. -/
theorem getIconForPathWithSize_eq (os : OS) (path : GoString) (sz : IconSize) :
    getIconForPathWithSize os path sz =
      if (os.SHGetFileInfoW (UTF16PtrFromString path) SHGFI_SYSICONINDEX).r1 = 0 then
        (.returned (fallbackForSize os path sz).1,
          Event.SHGetFileInfoW (UTF16PtrFromString path) SHGFI_SYSICONINDEX
            :: (fallbackForSize os path sz).2)
      else if (os.SHGetImageList (pickSizeGroup sz)).r1 ≠ 0 then
        (.returned (fallbackForSize os path sz).1,
          Event.SHGetFileInfoW (UTF16PtrFromString path) SHGFI_SYSICONINDEX
            :: Event.SHGetImageList (pickSizeGroup sz) (os.SHGetImageList (pickSizeGroup sz)).r1
                (os.SHGetImageList (pickSizeGroup sz)).out
            :: (fallbackForSize os path sz).2)
      else if (os.SHGetImageList (pickSizeGroup sz)).out = 0 then
        (.panicked,
          [Event.SHGetFileInfoW (UTF16PtrFromString path) SHGFI_SYSICONINDEX,
            Event.SHGetImageList (pickSizeGroup sz) (os.SHGetImageList (pickSizeGroup sz)).r1
                (os.SHGetImageList (pickSizeGroup sz)).out])
      else if (ImageListGetIcon os (os.SHGetImageList (pickSizeGroup sz)).out
                (os.SHGetFileInfoW (UTF16PtrFromString path) SHGFI_SYSICONINDEX).iIcon
                ILD_NORMAL).1.1 ≠ 0
            ∨ (ImageListGetIcon os (os.SHGetImageList (pickSizeGroup sz)).out
                (os.SHGetFileInfoW (UTF16PtrFromString path) SHGFI_SYSICONINDEX).iIcon
                ILD_NORMAL).1.2 = 0 then
        (.returned (fallbackForSize os path sz).1,
          Event.SHGetFileInfoW (UTF16PtrFromString path) SHGFI_SYSICONINDEX
            :: Event.SHGetImageList (pickSizeGroup sz) (os.SHGetImageList (pickSizeGroup sz)).r1
                (os.SHGetImageList (pickSizeGroup sz)).out
            :: Event.ImageListGetIcon (os.SHGetImageList (pickSizeGroup sz)).out
                (os.SHGetFileInfoW (UTF16PtrFromString path) SHGFI_SYSICONINDEX).iIcon ILD_NORMAL
            :: Event.ImageListRelease (os.SHGetImageList (pickSizeGroup sz)).out
            :: (fallbackForSize os path sz).2)
      else
        (.returned ((ImageListGetIcon os (os.SHGetImageList (pickSizeGroup sz)).out
                (os.SHGetFileInfoW (UTF16PtrFromString path) SHGFI_SYSICONINDEX).iIcon
                ILD_NORMAL).1.2, none),
          [Event.SHGetFileInfoW (UTF16PtrFromString path) SHGFI_SYSICONINDEX,
            Event.SHGetImageList (pickSizeGroup sz) (os.SHGetImageList (pickSizeGroup sz)).r1
                (os.SHGetImageList (pickSizeGroup sz)).out,
            Event.ImageListGetIcon (os.SHGetImageList (pickSizeGroup sz)).out
                (os.SHGetFileInfoW (UTF16PtrFromString path) SHGFI_SYSICONINDEX).iIcon ILD_NORMAL,
            Event.ImageListRelease (os.SHGetImageList (pickSizeGroup sz)).out]) := by
  by_cases hi : (os.SHGetFileInfoW (UTF16PtrFromString path) SHGFI_SYSICONINDEX).r1 = 0
  · have h0 : (getSysIconIndex os path).1.2 ≠ none := by
      rw [Ne, getSysIconIndex_ok_iff]; simpa using hi
    rw [getIcon_indexFails os path sz h0, getSysIconIndex_trace]
    simp [hi]
  · have h0 : (getSysIconIndex os path).1.2 = none := (getSysIconIndex_ok_iff os path).2 hi
    simp only [hi, if_false]
    unfold getIconForPathWithSize
    rw [getSysIconIndex_value os path h0]
    dsimp only
    by_cases hl : (os.SHGetImageList (pickSizeGroup sz)).r1 = 0
    · have h1 : (getImageList os (pickSizeGroup sz)).1.2 = none :=
        (getImageList_ok_iff os _).2 hl
      by_cases hp : (os.SHGetImageList (pickSizeGroup sz)).out = 0
      · rw [getIconWithSizeByIndex_nil os _ _ h1 hp, getImageList_trace]
        simp [hl, hp]
      · rw [getIconWithSizeByIndex_acquired os _ _ h1 hp, getImageList_trace]
        by_cases hk : (ImageListGetIcon os (os.SHGetImageList (pickSizeGroup sz)).out
                (os.SHGetFileInfoW (UTF16PtrFromString path) SHGFI_SYSICONINDEX).iIcon
                ILD_NORMAL).1.1 ≠ 0
            ∨ (ImageListGetIcon os (os.SHGetImageList (pickSizeGroup sz)).out
                (os.SHGetFileInfoW (UTF16PtrFromString path) SHGFI_SYSICONINDEX).iIcon
                ILD_NORMAL).1.2 = 0
        · simp only [hl, hp, hk, not_true_eq_false, if_false, if_true, ne_eq]
          simp
        · simp only [hl, hp, hk, not_true_eq_false, if_false, if_true, ne_eq]
          have hk2 : (ImageListGetIcon os (os.SHGetImageList (pickSizeGroup sz)).out
                (os.SHGetFileInfoW (UTF16PtrFromString path) SHGFI_SYSICONINDEX).iIcon
                ILD_NORMAL).1.2 ≠ 0 := fun h => hk (Or.inr h)
          simp [hk2]
    · have h1 : (getImageList os (pickSizeGroup sz)).1.2 ≠ none := by
        rw [Ne, getImageList_ok_iff]; exact hl
      rw [getIconWithSizeByIndex_listFails os _ _ h1, getImageList_trace]
      have h2 : ¬ ((getImageList os (pickSizeGroup sz)).1.2 = none ∧ (0 : HICON) ≠ 0) := by
        simp
      simp [hl]

theorem tier1Fails_iff (os : OS) (path : GoString) (sz : IconSize) :
    tier1Fails os path sz ↔
      ((os.SHGetFileInfoW (UTF16PtrFromString path) SHGFI_SYSICONINDEX).r1 = 0
      ∨ ((os.SHGetFileInfoW (UTF16PtrFromString path) SHGFI_SYSICONINDEX).r1 ≠ 0
          ∧ (os.SHGetImageList (pickSizeGroup sz)).r1 ≠ 0)
      ∨ ((os.SHGetFileInfoW (UTF16PtrFromString path) SHGFI_SYSICONINDEX).r1 ≠ 0
          ∧ (os.SHGetImageList (pickSizeGroup sz)).r1 = 0
          ∧ (os.SHGetImageList (pickSizeGroup sz)).out ≠ 0
          ∧ ((ImageListGetIcon os (os.SHGetImageList (pickSizeGroup sz)).out
                (os.SHGetFileInfoW (UTF16PtrFromString path) SHGFI_SYSICONINDEX).iIcon
                ILD_NORMAL).1.1 ≠ 0
            ∨ (ImageListGetIcon os (os.SHGetImageList (pickSizeGroup sz)).out
                (os.SHGetFileInfoW (UTF16PtrFromString path) SHGFI_SYSICONINDEX).iIcon
                ILD_NORMAL).1.2 = 0))) := by
  unfold tier1Fails
  by_cases hi : (os.SHGetFileInfoW (UTF16PtrFromString path) SHGFI_SYSICONINDEX).r1 = 0
  · have h0 : (getSysIconIndex os path).1.2 ≠ none := by
      rw [Ne, getSysIconIndex_ok_iff]; simpa using hi
    simp [hi, h0]
  · have h0 : (getSysIconIndex os path).1.2 = none := (getSysIconIndex_ok_iff os path).2 hi
    by_cases hl : (os.SHGetImageList (pickSizeGroup sz)).r1 = 0
    · have h1 : (getImageList os (pickSizeGroup sz)).1.2 = none :=
        (getImageList_ok_iff os _).2 hl
      have e0 : (getSysIconIndex os path).1.1
          = (os.SHGetFileInfoW (UTF16PtrFromString path) SHGFI_SYSICONINDEX).iIcon := by
        rw [getSysIconIndex_value os path h0]
      have e1 : (getImageList os (pickSizeGroup sz)).1.1
          = (os.SHGetImageList (pickSizeGroup sz)).out := by
        rw [getImageList_value os _ h1]
      simp only [h0, h1, e0, e1, hi, hl]
      tauto
    · have h1 : (getImageList os (pickSizeGroup sz)).1.2 ≠ none := by
        rw [Ne, getImageList_ok_iff]; exact hl
      simp [hi, h0, hl, h1]

/-! ## Claims about the icon locator -/

/-- C2: when tier 1 of `getIconForPathWithSize` fails (the index lookup errors, the
image list cannot be acquired, or `GetIcon` reports a non-zero status or a null
handle), the result is exactly the result of `SHGetFileIconFallback` for that path,
asked for the small icon when the size is S and for the large icon otherwise; and an
error is returned only if tier 1 failed and that legacy query returned the error. -/
theorem tier1_failure_uses_fallback (os : OS) (path : GoString) (sz : IconSize) :
    (tier1Fails os path sz →
        (getIconForPathWithSize os path sz).1
          = .returned (SHGetFileIconFallback os path (decide (sz ≠ SizeS))).1)
    ∧ (sz = SizeS →
        SHGetFileIconFallback os path (decide (sz ≠ SizeS))
          = SHGetFileIconFallback os path false)
    ∧ (sz = SizeM ∨ sz = SizeL ∨ sz = SizeXL →
        SHGetFileIconFallback os path (decide (sz ≠ SizeS))
          = SHGetFileIconFallback os path true)
    ∧ (∀ (h : HICON) (err : GoError),
        (getIconForPathWithSize os path sz).1 = .returned (h, some err) →
          tier1Fails os path sz
          ∧ (SHGetFileIconFallback os path (decide (sz ≠ SizeS))).1 = (h, some err)) := by
  refine ⟨?_, ?_, ?_, ?_⟩
  · intro hf
    rw [tier1Fails_iff] at hf
    rw [getIconForPathWithSize_eq, fallbackForSize_eq]
    rcases hf with hi | ⟨hi, hl⟩ | ⟨hi, hl, hp, hk⟩
    · simp [hi]
    · simp [hi, hl]
    · simp only [hi, hl, hp, hk, if_false, if_true, ne_eq, not_true_eq_false]
  · intro h; subst h; rfl
  · intro h
    rcases h with h | h | h <;> subst h <;> rfl
  · intro h err hret
    rw [tier1Fails_iff]
    rw [getIconForPathWithSize_eq, fallbackForSize_eq] at hret
    have hdec : (!decide (sz = SizeS)) = decide (sz ≠ SizeS) := by simp
    by_cases hi : (os.SHGetFileInfoW (UTF16PtrFromString path) SHGFI_SYSICONINDEX).r1 = 0
    · rw [if_pos hi] at hret
      exact ⟨Or.inl hi, by simpa using hret⟩
    · rw [if_neg hi] at hret
      by_cases hl : (os.SHGetImageList (pickSizeGroup sz)).r1 = 0
      · rw [if_neg (not_not.2 hl)] at hret
        by_cases hp : (os.SHGetImageList (pickSizeGroup sz)).out = 0
        · rw [if_pos hp] at hret
          simp at hret
        · rw [if_neg hp] at hret
          split_ifs at hret with hk
          · exact ⟨Or.inr (Or.inr ⟨hi, hl, hp, hk⟩), by simpa using hret⟩
          · simp at hret
      · rw [if_pos hl] at hret
        exact ⟨Or.inr (Or.inl ⟨hi, hl⟩), by simpa using hret⟩

/-- C6: `pickSizeGroup` sends S to `SHIL_SMALL`, M to `SHIL_LARGE`, L to
`SHIL_EXTRALARGE` and XL to `SHIL_JUMBO` (0, 1, 2 and 4), differently for different
size classes; and every `SHGetImageList` call of `getIconForPathWithSize` asks for
the group of the size it was given, the call being made whenever the index lookup
succeeds. -/
theorem pickSizeGroup_table :
    pickSizeGroup SizeS = SHIL_SMALL ∧ pickSizeGroup SizeM = SHIL_LARGE
    ∧ pickSizeGroup SizeL = SHIL_EXTRALARGE ∧ pickSizeGroup SizeXL = SHIL_JUMBO
    ∧ sizeClasses.map pickSizeGroup = [0, 1, 2, 4]
    ∧ (∀ a ∈ sizeClasses, ∀ b ∈ sizeClasses, pickSizeGroup a = pickSizeGroup b → a = b)
    ∧ (∀ (os : OS) (path : GoString) (sz : IconSize),
        ∀ g ∈ requestedGroups (getIconForPathWithSize os path sz).2, g = pickSizeGroup sz)
    ∧ (∀ (os : OS) (path : GoString) (sz : IconSize),
        (getSysIconIndex os path).1.2 = none →
          requestedGroups (getIconForPathWithSize os path sz).2 = [pickSizeGroup sz]) := by
  refine ⟨rfl, rfl, rfl, rfl, by decide, by decide, ?_, ?_⟩
  · intro os path sz g hg
    rw [getIconForPathWithSize_eq, fallbackForSize_eq, SHGetFileIconFallback_trace] at hg
    split_ifs at hg <;> simp [requestedGroups] at hg <;> exact hg
  · intro os path sz h0
    have hi := (getSysIconIndex_ok_iff os path).1 h0
    rw [getIconForPathWithSize_eq, fallbackForSize_eq, SHGetFileIconFallback_trace]
    simp only [hi, if_false]
    split_ifs <;> simp [requestedGroups]

/-- C7: in every call of `getIconForPathWithSize` that returns, the image-list
references released are exactly the references acquired, so as many `Release` calls
are made as `SHGetImageList` calls succeeded; at most one reference is acquired; no
`Release` is made when none was acquired; and in every call, returning or not, the
references released are the non-nil ones acquired. -/
theorem imageList_released_once (os : OS) (path : GoString) (sz : IconSize) :
    (∀ v, (getIconForPathWithSize os path sz).1 = .returned v →
        releasedImageLists (getIconForPathWithSize os path sz).2
          = acquiredImageLists (getIconForPathWithSize os path sz).2)
    ∧ (acquiredImageLists (getIconForPathWithSize os path sz).2).length ≤ 1
    ∧ (acquiredImageLists (getIconForPathWithSize os path sz).2 = [] →
        releasedImageLists (getIconForPathWithSize os path sz).2 = [])
    ∧ releasedImageLists (getIconForPathWithSize os path sz).2
        = (acquiredImageLists (getIconForPathWithSize os path sz).2).filter (fun p => p != 0) := by
  rw [getIconForPathWithSize_eq, fallbackForSize_eq, SHGetFileIconFallback_trace]
  by_cases hi : (os.SHGetFileInfoW (UTF16PtrFromString path) SHGFI_SYSICONINDEX).r1 = 0
  · simp [hi, releasedImageLists, acquiredImageLists]
  · by_cases hl : (os.SHGetImageList (pickSizeGroup sz)).r1 = 0
    · by_cases hp : (os.SHGetImageList (pickSizeGroup sz)).out = 0
      · simp [hi, hl, hp, releasedImageLists, acquiredImageLists]
      · simp only [hi, hl, hp, if_false, ne_eq, not_true_eq_false]
        split_ifs <;> simp [hl, hp, releasedImageLists, acquiredImageLists]
    · simp [hi, hl, releasedImageLists, acquiredImageLists]

/-- C10: whenever `getIconForPathWithSize` returns, its error is nil if and only if
its handle is non-null, so the test `err != nil || h == 0` of `main` is decided by
the error alone; and it returns in every case but one, a success status of
`SHGetImageList` that comes with a nil pointer. -/
theorem getIcon_error_nil_iff_handle (os : OS) (path : GoString) (sz : IconSize) :
    (∀ (h : HICON) (err : Option GoError),
        (getIconForPathWithSize os path sz).1 = .returned (h, err) →
          (err = none ↔ h ≠ 0))
    ∧ (∀ (h : HICON) (err : Option GoError),
        (getIconForPathWithSize os path sz).1 = .returned (h, err) →
          ((err ≠ none ∨ h = 0) ↔ err ≠ none))
    ∧ ((getIconForPathWithSize os path sz).1 = .panicked ↔
        ((getSysIconIndex os path).1.2 = none
          ∧ (getImageList os (pickSizeGroup sz)).1.2 = none
          ∧ (getImageList os (pickSizeGroup sz)).1.1 = 0)) := by
  have key : ∀ (h : HICON) (err : Option GoError),
      (getIconForPathWithSize os path sz).1 = .returned (h, err) → (err = none ↔ h ≠ 0) := by
    intro h err hret
    have hfb := SHGetFileIconFallback_error_iff os path (decide (sz ≠ SizeS))
    rw [getIconForPathWithSize_eq, fallbackForSize_eq] at hret
    split_ifs at hret with hi hl hp hk
    · simp only [Outcome.returned.injEq] at hret
      rw [hret] at hfb; exact hfb
    · simp only [Outcome.returned.injEq] at hret
      rw [hret] at hfb; exact hfb
    · simp only [Outcome.returned.injEq] at hret
      rw [hret] at hfb; exact hfb
    · simp only [Outcome.returned.injEq, Prod.mk.injEq] at hret
      obtain ⟨rfl, rfl⟩ := hret
      have hk2 : (ImageListGetIcon os (os.SHGetImageList (pickSizeGroup sz)).out
                (os.SHGetFileInfoW (UTF16PtrFromString path) SHGFI_SYSICONINDEX).iIcon
                ILD_NORMAL).1.2 ≠ 0 := fun h => hk (Or.inr h)
      simp [hk2]
  refine ⟨key, ?_, ?_⟩
  · intro h err hret
    have := key h err hret
    constructor
    · rintro (h1 | h1)
      · exact h1
      · intro h2; exact (this.1 h2) h1
    · intro h1; exact Or.inl h1
  · rw [getIconForPathWithSize_eq, getSysIconIndex_ok_iff, getImageList_ok_iff]
    by_cases hi : (os.SHGetFileInfoW (UTF16PtrFromString path) SHGFI_SYSICONINDEX).r1 = 0
    · simp [hi]
    · by_cases hl : (os.SHGetImageList (pickSizeGroup sz)).r1 = 0
      · have h1 : (getImageList os (pickSizeGroup sz)).1.2 = none :=
          (getImageList_ok_iff os _).2 hl
        have e1 : (getImageList os (pickSizeGroup sz)).1.1
            = (os.SHGetImageList (pickSizeGroup sz)).out := by
          rw [getImageList_value os _ h1]
        rw [e1]
        simp only [hi, hl, if_false, ne_eq, not_true_eq_false, not_false_eq_true, true_and]
        split_ifs with hp hk <;> simp [hp]
      · simp [hi, hl]

/-! ## Claims about the converter and the resolver -/

/-- C9: when `GdiplusStartup` succeeds and the bitmap is created, `saveIconToPNG`
makes exactly the calls startup, create, save, dispose, shutdown in that order,
whatever the save reports: one `GdipDisposeImage` on the bitmap, then one
`GdiplusShutdown` on the token; and `saveIconToPNG` returns an error exactly when
startup, bitmap creation or the save reports failure. -/
theorem saveIconToPNG_cleanup (os : OS) (hicon : HICON) (outPath : GoString) :
    (os.GdiplusStartup.r1 = 0 →
      (os.GdipCreateBitmapFromHICON hicon).r1 = 0 ∧ (os.GdipCreateBitmapFromHICON hicon).out ≠ 0 →
        (saveIconToPNG os hicon outPath).2
            = [Event.GdiplusStartup, Event.GdipCreateBitmapFromHICON hicon,
                Event.GdipSaveImageToFile (os.GdipCreateBitmapFromHICON hicon).out
                  (UTF16PtrFromString outPath),
                Event.GdipDisposeImage (os.GdipCreateBitmapFromHICON hicon).out,
                Event.GdiplusShutdown os.GdiplusStartup.out]
          ∧ disposedImages (saveIconToPNG os hicon outPath).2
              = [(os.GdipCreateBitmapFromHICON hicon).out]
          ∧ shutdownTokens (saveIconToPNG os hicon outPath).2 = [os.GdiplusStartup.out])
    ∧ ((saveIconToPNG os hicon outPath).1 ≠ none ↔
        (os.GdiplusStartup.r1 ≠ 0
          ∨ ((os.GdipCreateBitmapFromHICON hicon).r1 ≠ 0
              ∨ (os.GdipCreateBitmapFromHICON hicon).out = 0)
          ∨ (os.GdipSaveImageToFile (os.GdipCreateBitmapFromHICON hicon).out
                (UTF16PtrFromString outPath)).r1 ≠ 0)) := by
  unfold saveIconToPNG gdiplusStartup gdiplusShutdown
  by_cases hs : os.GdiplusStartup.r1 = 0
  · by_cases hc : (os.GdipCreateBitmapFromHICON hicon).r1 ≠ 0
        ∨ (os.GdipCreateBitmapFromHICON hicon).out = 0
    · have hc2 : ¬ ((os.GdipCreateBitmapFromHICON hicon).r1 = 0
          ∧ (os.GdipCreateBitmapFromHICON hicon).out ≠ 0) := by
        rintro ⟨h1, h2⟩; rcases hc with h | h
        · exact h h1
        · exact h2 h
      by_cases he : (os.GdipCreateBitmapFromHICON hicon).lastErr = 0 <;>
        simp [hs, hc, hc2, he]
    · have hc1 : (os.GdipCreateBitmapFromHICON hicon).r1 = 0 := by
        by_contra h; exact hc (Or.inl h)
      have hc2 : (os.GdipCreateBitmapFromHICON hicon).out ≠ 0 := fun h => hc (Or.inr h)
      by_cases hw : (os.GdipSaveImageToFile (os.GdipCreateBitmapFromHICON hicon).out
          (UTF16PtrFromString outPath)).r1 = 0
      · simp [hs, hc1, hc2, hw, disposedImages, shutdownTokens]
      · by_cases he : (os.GdipSaveImageToFile (os.GdipCreateBitmapFromHICON hicon).out
            (UTF16PtrFromString outPath)).lastErr = 0 <;>
          simp [hs, hc1, hc2, hw, he, disposedImages, shutdownTokens]
  · by_cases he : os.GdiplusStartup.lastErr = 0 <;> simp [hs, he]

/-- C8: in every call of `resolveShortcut` in which `CoInitializeEx` succeeds (status
0 or 1), `CoInitializeEx` is the first call, `CoUninitialize` is the last, and each
is made exactly once, whichever later step fails, panics or succeeds; when
`CoInitializeEx` fails, `CoUninitialize` is not called and an error is returned. -/
theorem resolveShortcut_coUninit_once (os : OS) (lnk : GoString) :
    (((os.CoInitializeEx COINIT_APARTMENTTHREADED).r1 = 0
        ∨ (os.CoInitializeEx COINIT_APARTMENTTHREADED).r1 = 1) →
      (resolveShortcut os lnk).2.count Event.CoUninitialize = 1
      ∧ (resolveShortcut os lnk).2.count (Event.CoInitializeEx COINIT_APARTMENTTHREADED) = 1
      ∧ (resolveShortcut os lnk).2.head? = some (Event.CoInitializeEx COINIT_APARTMENTTHREADED)
      ∧ (resolveShortcut os lnk).2.getLast? = some Event.CoUninitialize)
    ∧ (¬ ((os.CoInitializeEx COINIT_APARTMENTTHREADED).r1 = 0
          ∨ (os.CoInitializeEx COINIT_APARTMENTTHREADED).r1 = 1) →
      (resolveShortcut os lnk).2.count Event.CoUninitialize = 0
      ∧ (resolveShortcut os lnk).2 = [Event.CoInitializeEx COINIT_APARTMENTTHREADED]
      ∧ ∃ err, (resolveShortcut os lnk).1 = .returned ([], some err)) := by
  constructor
  · intro hinit
    have h0 : coInitialize os = (none, [Event.CoInitializeEx COINIT_APARTMENTTHREADED]) := by
      unfold coInitialize
      have : ¬ ((os.CoInitializeEx COINIT_APARTMENTTHREADED).r1 ≠ 0
          ∧ (os.CoInitializeEx COINIT_APARTMENTTHREADED).r1 ≠ 1) := by tauto
      simp [this]
    unfold resolveShortcut
    rw [h0]
    unfold coCreateInstance queryInterface PersistFileLoad ShellLinkGetPath coUninit
      ShellLinkRelease PersistFileRelease
    dsimp only
    by_cases hc : os.CoCreateInstance.r1 = 0
    · by_cases hp : os.CoCreateInstance.out = 0
      · simp [hc, hp, List.count_cons]
      · by_cases hq : (os.QueryInterface os.CoCreateInstance.out).1 = 0
        · by_cases hpf : (os.QueryInterface os.CoCreateInstance.out).2 = 0
          · simp [hc, hp, hq, hpf, List.count_cons]
          · by_cases hload : os.PersistFileLoad (os.QueryInterface os.CoCreateInstance.out).2
                (UTF16PtrFromString lnk) 0 = 0
            · by_cases hg1 : (os.ShellLinkGetPath os.CoCreateInstance.out
                  (SLGP_RAWPATH ||| SLGP_UNCPRIORITY)).ret = 0
              · simp [hc, hp, hq, hpf, hload, hg1, List.count_cons]
              · by_cases hg2 : (os.ShellLinkGetPath os.CoCreateInstance.out
                    SLGP_SHORTPATH).ret = 0 <;>
                  simp [hc, hp, hq, hpf, hload, hg1, hg2, List.count_cons]
            · simp [hc, hp, hq, hpf, hload, List.count_cons]
        · simp [hc, hp, hq, List.count_cons]
    · by_cases he : os.CoCreateInstance.lastErr = 0 <;> simp [hc, he, List.count_cons]
  · intro hinit
    have h0 : ∃ err, coInitialize os
        = (some err, [Event.CoInitializeEx COINIT_APARTMENTTHREADED]) := by
      unfold coInitialize
      have : (os.CoInitializeEx COINIT_APARTMENTTHREADED).r1 ≠ 0
          ∧ (os.CoInitializeEx COINIT_APARTMENTTHREADED).r1 ≠ 1 := by tauto
      by_cases he : (os.CoInitializeEx COINIT_APARTMENTTHREADED).lastErr = 0 <;>
        simp [this, he]
    obtain ⟨err, h0⟩ := h0
    unfold resolveShortcut
    rw [h0]
    simp

/-! ## The orchestrator and the icon handle -/

theorem getIconForPathWithSize_destroys_nothing (os : OS) (path : GoString) (sz : IconSize) :
    destroyedIcons (getIconForPathWithSize os path sz).2 = [] := by
  rw [getIconForPathWithSize_eq, fallbackForSize_eq, SHGetFileIconFallback_trace]
  split_ifs <;> simp [destroyedIcons]

theorem saveIconToPNG_destroys_nothing (os : OS) (hicon : HICON) (outPath : GoString) :
    destroyedIcons (saveIconToPNG os hicon outPath).2 = [] := by
  unfold saveIconToPNG gdiplusStartup gdiplusShutdown
  dsimp only
  by_cases hs : os.GdiplusStartup.r1 = 0
  · simp only [hs, ne_eq, not_true_eq_false, if_false]
    split_ifs <;> simp [destroyedIcons]
  · by_cases he : os.GdiplusStartup.lastErr = 0 <;> simp [hs, he, destroyedIcons]

theorem destroyedIcons_append (t u : Trace) :
    destroyedIcons (t ++ u) = destroyedIcons t ++ destroyedIcons u := by
  simp [destroyedIcons, List.filterMap_append]

/-- Once the locator has returned a handle, `main` destroys it when the save
succeeds and leaves it alone when the save returns an error. -/
theorem mainLocateAndSave_destroyedIcons (vol : GoString → Nat) (os : OS) (size : IconSize)
    (use : GoString) (t0 : Trace) (h : HICON) (hh : h ≠ 0)
    (hret : (getIconForPathWithSize os use size).1 = .returned (h, none)) :
    destroyedIcons (mainLocateAndSave vol os size use t0).trace
      = destroyedIcons t0
        ++ (if (saveIconToPNG os h (outputName vol use size)).1 = none then [h] else []) := by
  unfold mainLocateAndSave
  have hg := getIconForPathWithSize_destroys_nothing os use size
  rcases hx : getIconForPathWithSize os use size with ⟨r, t1⟩
  rw [hx] at hret hg
  simp only at hret hg
  subst hret
  have hs := saveIconToPNG_destroys_nothing os h (outputName vol use size)
  rcases hy : saveIconToPNG os h (outputName vol use size) with ⟨e, t2⟩
  rw [hy] at hs
  simp only at hs
  cases e with
  | none =>
    simp only [hh, ne_eq, not_true_eq_false, not_false_eq_true, or_self, if_false, hy,
      destroyedIcons_append, hg, hs, DestroyIcon, if_true, List.nil_append]
    simp [destroyedIcons]
  | some err =>
    simp only [hh, ne_eq, not_true_eq_false, not_false_eq_true, or_self, if_false, hy,
      destroyedIcons_append, hg, hs, List.append_nil]
    simp

/-- C1 (the code where the save fails): in the world where every call succeeds but
`GdipSaveImageToFile` reports status 7, the locator returns the handle 0x77,
`saveIconToPNG` returns an error, `main` leaves with exit code 1 through `os.Exit`,
and its trace holds no `DestroyIcon` call; in the world where the save succeeds the
same run destroys the handle once. -/
theorem main_exit_skips_destroyIcon (vol : GoString → Nat) :
    (getIconForPathWithSize osSaveFails (utf8 "C:\\a\\b.txt") SizeL).1
        = .returned (0x77, none)
    ∧ (saveIconToPNG osSaveFails 0x77 (utf8 "b_48.png")).1 ≠ none
    ∧ main vol osSaveFails false false false false [utf8 "C:\\a\\b.txt"]
        = ⟨1, [Event.SHGetFileInfoW (some (utf8 "C:\\a\\b.txt")) SHGFI_SYSICONINDEX,
              Event.SHGetImageList SHIL_EXTRALARGE 0 0x1000,
              Event.ImageListGetIcon 0x1000 3 ILD_NORMAL,
              Event.ImageListRelease 0x1000,
              Event.GdiplusStartup,
              Event.GdipCreateBitmapFromHICON 0x77,
              Event.GdipSaveImageToFile 0x3000 (some (utf8 "b_48.png")),
              Event.GdipDisposeImage 0x3000,
              Event.GdiplusShutdown 0x2000]⟩
    ∧ destroyedIcons
        (main vol osSaveFails false false false false [utf8 "C:\\a\\b.txt"]).trace = []
    ∧ destroyedIcons
        (main vol osHealthy false false false false [utf8 "C:\\a\\b.txt"]).trace
        = [0x77] := by
  have hrun : ∀ os : OS, main vol os false false false false [utf8 "C:\\a\\b.txt"]
      = main noVolume os false false false false [utf8 "C:\\a\\b.txt"] :=
    fun os => main_of_agreed vol os false false false false _ [] (by decide) (by decide)
  rw [hrun, hrun]
  refine ⟨by decide, by decide, by decide, by decide, by decide⟩

/-- Away from the roots, where `filepath.Base` is not the separator itself, the output
name holds no path separator. -/
theorem outputName_no_separator (vol : GoString → Nat) (path : GoString) (sz : IconSize)
    (hsz : sz ∈ sizeClasses) (hb : Base vol path ≠ [Separator]) :
    ∀ c ∈ outputName vol path sz, IsPathSeparator c = false := by
  have hbase : ∀ c ∈ Base vol path, IsPathSeparator c = false := by
    rcases Base_cases vol path with h | h
    · exact absurd h hb
    · exact h
  have hstem : ∀ c ∈ outputStem vol path, IsPathSeparator c = false := by
    unfold outputStem
    dsimp only
    split
    · decide
    · intro c hc
      exact hbase c (List.mem_of_mem_take hc)
  have hsuf : ∀ c ∈ sizeSuffix sz, IsPathSeparator c = false := by
    simp only [sizeClasses, List.mem_cons, List.mem_singleton, List.not_mem_nil, or_false] at hsz
    rcases hsz with h | h | h | h <;> subst h <;> decide
  have hpng : ∀ c ∈ utf8 ".png", IsPathSeparator c = false := by decide
  intro c hc
  unfold outputName at hc
  rw [List.mem_append, List.mem_append] at hc
  rcases hc with (hc | hc) | hc
  · exact hstem c hc
  · exact hsuf c hc
  · exact hpng c hc

/-- C4 (the run at a drive root): in the world where every call succeeds, `main`
run on `C:\` asks `GdipSaveImageToFile` to write `\_48.png`, a path that starts
with a separator, and exits with code 0. -/
theorem main_drive_root_saves_outside_cwd (vol : GoString → Nat) :
    Event.GdipSaveImageToFile 0x3000 (some (utf8 "\\_48.png"))
        ∈ (main vol osHealthy false false false false [utf8 "C:\\"]).trace
    ∧ (main vol osHealthy false false false false [utf8 "C:\\"]).exitCode = 0
    ∧ outputName vol (utf8 "C:\\") SizeL = utf8 "\\_48.png"
    ∧ (outputName vol (utf8 "C:\\") SizeL).any IsPathSeparator = true
    ∧ (∀ sz ∈ sizeClasses, (outputName vol (utf8 "C:\\") sz).head? = some Separator)
    ∧ outputName vol (utf8 ".") SizeL = utf8 "icon_48.png"
    ∧ outputName vol (utf8 "..") SizeL = utf8 "._48.png" := by
  have hrun : main vol osHealthy false false false false [utf8 "C:\\"]
      = main noVolume osHealthy false false false false [utf8 "C:\\"] :=
    main_of_agreed vol osHealthy false false false false _ [] (by decide) (by decide)
  have hroot : ∀ sz, outputName vol (utf8 "C:\\") sz = outputName noVolume (utf8 "C:\\") sz :=
    fun sz => outputName_of_agreed vol _ sz (by decide)
  rw [hrun, hroot, outputName_of_agreed vol (utf8 ".") _ (by decide),
    outputName_of_agreed vol (utf8 "..") _ (by decide)]
  refine ⟨by decide, by decide, by decide, by decide, ?_, by decide, by decide⟩
  intro sz hsz
  rw [hroot]
  simp only [sizeClasses, List.mem_cons, List.mem_singleton, List.not_mem_nil, or_false] at hsz
  rcases hsz with h | h | h | h <;> subst h <;> decide

/-! ## The claims at concrete worlds -/

theorem tier1_failure_uses_fallback_witness :
    tier1Fails osNoImageList (utf8 "C:\\a\\b.txt") SizeXL
    ∧ (getIconForPathWithSize osNoImageList (utf8 "C:\\a\\b.txt") SizeXL).1
        = .returned (0x51, none) := by
  have hf : tier1Fails osNoImageList (utf8 "C:\\a\\b.txt") SizeXL :=
    Or.inr (Or.inl ⟨by decide, by decide⟩)
  have hfb : (SHGetFileIconFallback osNoImageList (utf8 "C:\\a\\b.txt")
      (decide (SizeXL ≠ SizeS))).1 = (0x51, none) := by decide
  exact ⟨hf, ((tier1_failure_uses_fallback osNoImageList (utf8 "C:\\a\\b.txt") SizeXL).1 hf).trans
    (congrArg Outcome.returned hfb)⟩

theorem imageList_released_once_witness :
    (getIconForPathWithSize osNullIcon (utf8 "C:\\a\\b.txt") SizeM).1
        = .returned (0x51, none)
    ∧ acquiredImageLists (getIconForPathWithSize osNullIcon (utf8 "C:\\a\\b.txt") SizeM).2
        = [0x1000]
    ∧ releasedImageLists (getIconForPathWithSize osNullIcon (utf8 "C:\\a\\b.txt") SizeM).2
        = [0x1000] := by
  have hret : (getIconForPathWithSize osNullIcon (utf8 "C:\\a\\b.txt") SizeM).1
      = .returned (0x51, none) := by decide
  have hacq : acquiredImageLists
      (getIconForPathWithSize osNullIcon (utf8 "C:\\a\\b.txt") SizeM).2 = [0x1000] := by decide
  exact ⟨hret, hacq,
    ((imageList_released_once osNullIcon (utf8 "C:\\a\\b.txt") SizeM).1 _ hret).trans hacq⟩

theorem getIcon_error_nil_iff_handle_witness :
    (getIconForPathWithSize osHealthy (utf8 "C:\\a\\b.txt") SizeS).1
        = .returned (0x77, none)
    ∧ ((none : Option GoError) = none ↔ (0x77 : HICON) ≠ 0) := by
  have hret : (getIconForPathWithSize osHealthy (utf8 "C:\\a\\b.txt") SizeS).1
      = .returned (0x77, none) := by decide
  exact ⟨hret,
    (getIcon_error_nil_iff_handle osHealthy (utf8 "C:\\a\\b.txt") SizeS).1 0x77 none hret⟩

theorem saveIconToPNG_cleanup_witness :
    (saveIconToPNG osSaveFails 0x77 (utf8 "b_48.png")).1 ≠ none
    ∧ disposedImages (saveIconToPNG osSaveFails 0x77 (utf8 "b_48.png")).2 = [0x3000]
    ∧ shutdownTokens (saveIconToPNG osSaveFails 0x77 (utf8 "b_48.png")).2 = [0x2000] := by
  have h := (saveIconToPNG_cleanup osSaveFails 0x77 (utf8 "b_48.png")).1
    (by decide) ⟨by decide, by decide⟩
  exact ⟨by decide, h.2.1, h.2.2⟩

theorem resolveShortcut_coUninit_once_witness :
    (resolveShortcut osNoPersistFile (utf8 "C:\\a\\b.lnk")).1
        = .returned ([], some (.errorfNat "QueryInterface failed: 0x%x" 0x80004002))
    ∧ (resolveShortcut osNoPersistFile (utf8 "C:\\a\\b.lnk")).2.count Event.CoUninitialize = 1 := by
  exact ⟨by decide,
    ((resolveShortcut_coUninit_once osNoPersistFile (utf8 "C:\\a\\b.lnk")).1
      (Or.inl (by decide))).1⟩

end IconDump
